import Mathlib

/-!
Verification of the strategy-resolver module (`freqtrade/resolvers/strategy_resolver.py`).

The Python module is shallowly embedded below.  Python objects appearing in the
resolver are modelled with the executable `Val` type (numbers as `Int`/`Rat`,
dictionaries as key-unique association lists, Python `None` as `Val.none`).
A strategy instance is a record holding

  * the attributes visible on the instance or (as plain class attributes) on
    its class, as an association list `attrs` — `hasattr` is key presence and
    an attribute bound to Python `None` is `some Val.none`, which is distinct
    from absence;
  * the attributes defined as read-only `property` objects on the class, as a
    second association list `props` (a data descriptor shadows the instance
    dictionary, so attribute lookup consults `props` first);
  * the declared parameter counts of the three inspected trading methods
    (the resolver only ever reads `len(getfullargspec(...).args)`).

External collaborators (the `IResolver._load_object` import machinery,
`build_search_paths`, the base64 decoder, and the `REQUIRED_ORDERTYPES` /
`REQUIRED_ORDERTIF` constants from `freqtrade.constants`) are passed in as
parameters, exactly at the boundary the module itself uses them.
-/

/-- Keys of a Python dictionary as they occur in this module: strings or
integers (`minimal_roi` keys get coerced from strings to integers). -/
inductive Key where
  | str (s : String)
  | int (n : Int)
deriving DecidableEq, Repr

/-- A Python value as used by the resolver: `none` is Python `None`,
`float` values are represented as rationals, dictionaries as association
lists (kept key-unique by the update operation below). -/
inductive Val where
  | none
  | bool (b : Bool)
  | int (n : Int)
  | float (q : Rat)
  | str (s : String)
  | dict (entries : List (Key × Val))

mutual

def Val.decEq : (a b : Val) → Decidable (a = b)
  | .none, .none => .isTrue rfl
  | .bool x, .bool y =>
    if h : x = y then .isTrue (by rw [h]) else
      .isFalse (fun hh => h (by injection hh))
  | .int x, .int y =>
    if h : x = y then .isTrue (by rw [h]) else
      .isFalse (fun hh => h (by injection hh))
  | .float x, .float y =>
    if h : x = y then .isTrue (by rw [h]) else
      .isFalse (fun hh => h (by injection hh))
  | .str x, .str y =>
    if h : x = y then .isTrue (by rw [h]) else
      .isFalse (fun hh => h (by injection hh))
  | .dict l, .dict m =>
    match valEntriesDecEq l m with
    | .isTrue h => .isTrue (by rw [h])
    | .isFalse h => .isFalse (fun hh => h (by injection hh))
  | .none, .bool _ => .isFalse (fun h => Val.noConfusion h)
  | .none, .int _ => .isFalse (fun h => Val.noConfusion h)
  | .none, .float _ => .isFalse (fun h => Val.noConfusion h)
  | .none, .str _ => .isFalse (fun h => Val.noConfusion h)
  | .none, .dict _ => .isFalse (fun h => Val.noConfusion h)
  | .bool _, .none => .isFalse (fun h => Val.noConfusion h)
  | .bool _, .int _ => .isFalse (fun h => Val.noConfusion h)
  | .bool _, .float _ => .isFalse (fun h => Val.noConfusion h)
  | .bool _, .str _ => .isFalse (fun h => Val.noConfusion h)
  | .bool _, .dict _ => .isFalse (fun h => Val.noConfusion h)
  | .int _, .none => .isFalse (fun h => Val.noConfusion h)
  | .int _, .bool _ => .isFalse (fun h => Val.noConfusion h)
  | .int _, .float _ => .isFalse (fun h => Val.noConfusion h)
  | .int _, .str _ => .isFalse (fun h => Val.noConfusion h)
  | .int _, .dict _ => .isFalse (fun h => Val.noConfusion h)
  | .float _, .none => .isFalse (fun h => Val.noConfusion h)
  | .float _, .bool _ => .isFalse (fun h => Val.noConfusion h)
  | .float _, .int _ => .isFalse (fun h => Val.noConfusion h)
  | .float _, .str _ => .isFalse (fun h => Val.noConfusion h)
  | .float _, .dict _ => .isFalse (fun h => Val.noConfusion h)
  | .str _, .none => .isFalse (fun h => Val.noConfusion h)
  | .str _, .bool _ => .isFalse (fun h => Val.noConfusion h)
  | .str _, .int _ => .isFalse (fun h => Val.noConfusion h)
  | .str _, .float _ => .isFalse (fun h => Val.noConfusion h)
  | .str _, .dict _ => .isFalse (fun h => Val.noConfusion h)
  | .dict _, .none => .isFalse (fun h => Val.noConfusion h)
  | .dict _, .bool _ => .isFalse (fun h => Val.noConfusion h)
  | .dict _, .int _ => .isFalse (fun h => Val.noConfusion h)
  | .dict _, .float _ => .isFalse (fun h => Val.noConfusion h)
  | .dict _, .str _ => .isFalse (fun h => Val.noConfusion h)
termination_by structural a _ => a

def valEntriesDecEq : (l m : List (Key × Val)) → Decidable (l = m)
  | [], [] => .isTrue rfl
  | [], _ :: _ => .isFalse (fun h => List.noConfusion h)
  | _ :: _, [] => .isFalse (fun h => List.noConfusion h)
  | (k, v) :: t, (k', v') :: t' =>
    if hk : k = k' then
      match Val.decEq v v', valEntriesDecEq t t' with
      | .isTrue hv, .isTrue ht => .isTrue (by rw [hk, hv, ht])
      | .isFalse hv, _ =>
        .isFalse (fun h => by
          injection h with h1 h2
          exact hv (congrArg Prod.snd h1))
      | _, .isFalse ht =>
        .isFalse (fun h => by
          injection h with h1 h2
          exact ht h2)
    else
      .isFalse (fun h => by
        injection h with h1 h2
        exact hk (congrArg Prod.fst h1))
termination_by structural l _ => l

end

instance : DecidableEq Val := Val.decEq

/-- Python truthiness (`bool(v)`), as used by `if not config.get('strategy')`
and `if strategy._ft_params_from_file`. -/
def Val.toBool : Val → Bool
  | Val.none => false
  | Val.bool b => b
  | Val.int n => n != 0
  | Val.float q => q != 0
  | Val.str s => s != ""
  | Val.dict l => !l.isEmpty

/-- First-match lookup in an association list (Python `d[k]` / `k in d`). -/
def alistGet? {K V : Type} [DecidableEq K] : List (K × V) → K → Option V
  | [], _ => Option.none
  | (k, v) :: rest, key => if k = key then some v else alistGet? rest key

/-- Update-or-append for an association list: Python `d[k] = v` keeps the
first-insertion position of an existing key and appends a new key. -/
def alistSet {K V : Type} [DecidableEq K] : List (K × V) → K → V → List (K × V)
  | [], key, v => [(key, v)]
  | (k, w) :: rest, key, v =>
    if k = key then (k, v) :: rest else (k, w) :: alistSet rest key v

/-- The configuration mapping (`config: Dict[str, Any]`), caller-owned and
mutated in place by the resolver; modelled functionally. -/
abbrev Config : Type := List (String × Val)

/-- The exception kinds raised by the resolver and the Python builtins it
calls: `OperationalException`, `ImportError`, `AttributeError`,
`ValueError` / `TypeError` from `int()` / `float()` and `in`. -/
inductive Err where
  | operational (msg : String)
  | importError (msg : String)
  | attributeError (name : String)
  | valueError (msg : String)
  | typeError (msg : String)
deriving DecidableEq

/-- A loaded strategy instance as the resolver observes it. -/
structure Strategy where
  /-- Python `strategy.__class__.__name__`, used in validation error messages. -/
  className : String
  /-- Plain attributes (instance dictionary merged with non-descriptor class
  attributes): key present iff `hasattr` holds and the attribute is not a
  `property`. -/
  attrs : List (String × Val)
  /-- Read-only `property` descriptors on `type(strategy)`, with the value the
  getter returns.  (Assigning to such an attribute is never attempted by the
  resolver on the paths modelled here: the override engine explicitly guards
  against it.) -/
  props : List (String × Val)
  /-- Value of `len(getfullargspec(strategy.populate_indicators).args)`. -/
  populateIndicatorsArgs : Nat
  /-- Value of `len(getfullargspec(strategy.populate_buy_trend).args)`. -/
  populateBuyTrendArgs : Nat
  /-- Value of `len(getfullargspec(strategy.populate_sell_trend).args)`. -/
  populateSellTrendArgs : Nat
deriving DecidableEq

/-- Python `getattr(strategy, name)` as an `Option`: a property descriptor wins over
the instance dictionary. -/
def Strategy.getattr? (s : Strategy) (name : String) : Option Val :=
  match alistGet? s.props name with
  | some v => some v
  | Option.none => alistGet? s.attrs name

/-- Python `hasattr(strategy, name)`. -/
def Strategy.hasattr (s : Strategy) (name : String) : Bool :=
  (s.getattr? name).isSome

/-- Python `getattr(strategy, name)` with a fallback (used where the Python code has
already established presence). -/
def Strategy.getattrD (s : Strategy) (name : String) (d : Val) : Val :=
  (s.getattr? name).getD d

/-- Python `getattr(strategy, name)` raising `AttributeError` when absent. -/
def Strategy.getattrE (s : Strategy) (name : String) : Except Err Val :=
  match s.getattr? name with
  | some v => Except.ok v
  | Option.none => Except.error (Err.attributeError name)

/-- Python `setattr(strategy, name, v)` on the instance dictionary. -/
def Strategy.setattr (s : Strategy) (name : String) (v : Val) : Strategy :=
  { s with attrs := alistSet s.attrs name v }

/-- Python `isinstance(getattr(type(strategy), name, None), property)`. -/
def Strategy.isProp (s : Strategy) (name : String) : Bool :=
  (alistGet? s.props name).isSome

/-- Python `receiver.get(key, default)`: the receiver must support `.get`
(here: be a dictionary, else `AttributeError`), and the default argument is
evaluated (possibly raising) before the lookup happens. -/
def valGet (receiver : Val) (key : String) (dflt : Except Err Val) : Except Err Val :=
  match receiver with
  | Val.dict l => match dflt with
    | Except.error e => Except.error e
    | Except.ok d => Except.ok ((alistGet? l (Key.str key)).getD d)
  | _ => Except.error (Err.attributeError "get")

/-- The `OperationalException` message for a missing `strategy` config entry. -/
def noStrategyMsg : String :=
  "No strategy set. Please use `--strategy` to specify the strategy class to use."

/-- The `OperationalException` message when the locator returns no instance. -/
def notFoundMsg (name : String) : String :=
  "Impossible to load Strategy '" ++ name ++
    "'. This class does not exist or contains Python code errors."

/-- The `ImportError` message for an incomplete `order_types` mapping. -/
def orderTypesMsg (cls : String) : String :=
  "Impossible to load Strategy '" ++ cls ++ "'. Order-types mapping is incomplete."

/-- The `ImportError` message for an incomplete `order_time_in_force` mapping. -/
def orderTifMsg (cls : String) : String :=
  "Impossible to load Strategy '" ++ cls ++ "'. Order-time-in-force mapping is incomplete."

/-- The deprecation warning logged by the `ticker_interval` pre-pass. -/
def deprecatedTimeframeMsg : String :=
  "DEPRECATED: Please migrate to using 'timeframe' instead of 'ticker_interval'."

/-- Numeric value of a list of decimal digits (most significant first). -/
def digitsVal (l : List Char) : Nat :=
  l.foldl (fun acc c => acc * 10 + (c.toNat - '0'.toNat)) 0

/-- Parse a nonempty all-digit string; `Option.none` otherwise. -/
def digitsToNat? (l : List Char) : Option Nat :=
  if l.isEmpty then Option.none
  else if l.all Char.isDigit then some (digitsVal l) else Option.none

/-- Python `int(x)` on a dictionary key, as used on `minimal_roi` keys:
integers pass through, strings parse as optionally signed decimal literals,
anything else fails with `ValueError`. -/
def pyIntKey : Key → Except Err Int
  | Key.int n => Except.ok n
  | Key.str s =>
    match s.toList with
    | '-' :: rest =>
      match digitsToNat? rest with
      | some n => Except.ok (-(n : Int))
      | Option.none => Except.error (Err.valueError s)
    | '+' :: rest =>
      match digitsToNat? rest with
      | some n => Except.ok (n : Int)
      | Option.none => Except.error (Err.valueError s)
    | l =>
      match digitsToNat? l with
      | some n => Except.ok (n : Int)
      | Option.none => Except.error (Err.valueError s)

/-- Parse an unsigned decimal literal (`"10"`, `"0.05"`, `".5"`, `"5."`);
the value `ip.fp` is the exact rational `(ip * 10^|fp| + fp) / 10^|fp|`. -/
def parseUnsignedFloat? (l : List Char) : Option Rat :=
  let ip := l.takeWhile Char.isDigit
  let rest := l.dropWhile Char.isDigit
  match rest with
  | [] => if ip.isEmpty then Option.none else some (mkRat (Int.ofNat (digitsVal ip)) 1)
  | '.' :: fp =>
    if fp.all Char.isDigit && !(ip.isEmpty && fp.isEmpty) then
      some (mkRat (Int.ofNat (digitsVal ip * 10 ^ fp.length + digitsVal fp))
        (10 ^ fp.length))
    else Option.none
  | _ => Option.none

/-- Python `float(x)`: floats and integers convert, booleans convert to 0/1,
decimal strings parse (`ValueError` on a malformed string), `None` and
dictionaries raise `TypeError`. -/
def pyFloat : Val → Except Err Rat
  | Val.float q => Except.ok q
  | Val.int n => Except.ok (mkRat n 1)
  | Val.bool b => Except.ok (if b then mkRat 1 1 else mkRat 0 1)
  | Val.str s =>
    match s.toList with
    | '-' :: rest =>
      match parseUnsignedFloat? rest with
      | some q => Except.ok (-q)
      | Option.none => Except.error (Err.valueError s)
    | '+' :: rest =>
      match parseUnsignedFloat? rest with
      | some q => Except.ok q
      | Option.none => Except.error (Err.valueError s)
    | l =>
      match parseUnsignedFloat? l with
      | some q => Except.ok q
      | Option.none => Except.error (Err.valueError s)
  | Val.none => Except.error (Err.typeError "float() argument must not be None")
  | Val.dict _ => Except.error (Err.typeError "float() argument must not be a dict")

/-- Python `text.split(sep)` for a one-character separator: splitting a list
of characters at every occurrence of `c` (a string with `n` separators yields
`n + 1` parts, empty parts included). -/
def pySplit (c : Char) : List Char → List (List Char)
  | [] => [[]]
  | x :: xs =>
    match pySplit c xs with
    | [] => [[]]
    | h :: t => if x = c then [] :: h :: t else (x :: h) :: t

/-- Observable outcome of the encoded-source handling at the top of
`_load_strategy`: the effective strategy name, the search path (the fresh
temporary directory prepended when the materializer activates), and the
files written into that directory as (file name, file content) pairs. -/
structure MaterializeOut where
  effName : List Char
  paths : List String
  written : List (List Char × List Char)
deriving DecidableEq

/-- The encoded-source materializer from `_load_strategy`: when the strategy
name contains `":"` and splits into exactly two parts, decode the second part
(`urlsafe_b64decode(...).decode('utf-8')` is the collaborator `decode`),
write it to `<name>.py` next to an empty `__init__.py` in the fresh temporary
directory, use the first part as the strategy name and prepend the temporary
directory to the search path; otherwise change nothing. -/
def materializeEncoded (name : List Char) (paths : List String) (tempDir : String)
    (decode : List Char → List Char) : MaterializeOut :=
  if name.contains ':' then
    match pySplit ':' name with
    | [base, payload] =>
      { effName := base
        paths := tempDir :: paths
        written := [(base ++ ".py".toList, decode payload), ("__init__.py".toList, [])] }
    | _ => { effName := name, paths := paths, written := [] }
  else { effName := name, paths := paths, written := [] }

/-- The backward-compatibility pre-pass at the top of `load_strategy`
(lines 48–54): when the instance has the deprecated `ticker_interval` but no
`timeframe`, and the configuration has no `timeframe` entry, log a
deprecation warning and copy `ticker_interval` onto `timeframe`.  Returns the
updated instance together with the warnings logged. -/
def tickerIntervalPrePass (s : Strategy) (config : Config) : Strategy × List String :=
  if s.hasattr "ticker_interval" && !s.hasattr "timeframe" then
    if (alistGet? config "timeframe").isNone then
      (s.setattr "timeframe" (s.getattrD "ticker_interval" Val.none), [deprecatedTimeframeMsg])
    else (s, [])
  else (s, [])

/-- One overlay assignment `strategy.<attr> = receiver.get(key, strategy.<attr>)`
from the hyperopt-parameters block of `load_strategy`. -/
def overlayField (receiver : Val) (key : String) (s : Strategy) (attr : String) :
    Except Err Strategy :=
  match valGet receiver key (s.getattrE attr) with
  | Except.error e => Except.error e
  | Except.ok v => Except.ok (s.setattr attr v)

/-- The hyperopt-file overlay in `load_strategy`: when the instance carries a
truthy `_ft_params_from_file` record, overlay `minimal_roi`, `stoploss` and
the four trailing-stop attributes from it, each falling back to the current
attribute value (whose read happens eagerly and can raise
`AttributeError`). -/
def hyperoptOverlay (s : Strategy) : Except Err Strategy :=
  (s.getattrE "_ft_params_from_file").bind (fun params =>
    if params.toBool then
      (overlayField params "roi" s "minimal_roi").bind (fun s =>
      (valGet params "stoploss" (Except.ok (Val.dict []))).bind (fun stopRecord =>
      (overlayField stopRecord "stoploss" s "stoploss").bind (fun s =>
      (valGet params "trailing" (Except.ok (Val.dict []))).bind (fun trailing =>
      (overlayField trailing "trailing_stop" s "trailing_stop").bind (fun s =>
      (overlayField trailing "trailing_stop_positive" s "trailing_stop_positive").bind (fun s =>
      (overlayField trailing "trailing_stop_positive_offset" s
          "trailing_stop_positive_offset").bind (fun s =>
      (overlayField trailing "trailing_only_offset_is_reached" s
          "trailing_only_offset_is_reached").bind Except.ok)))))))
    else Except.ok s)

/-- The fixed, ordered attribute catalog of `load_strategy`
(attribute name, default). -/
def attributesCatalog : List (String × Val) :=
  [("minimal_roi", Val.dict [(Key.str "0", Val.float 10)]),
   ("timeframe", Val.none),
   ("stoploss", Val.none),
   ("trailing_stop", Val.none),
   ("trailing_stop_positive", Val.none),
   ("trailing_stop_positive_offset", Val.float 0),
   ("trailing_only_offset_is_reached", Val.none),
   ("use_custom_stoploss", Val.none),
   ("process_only_new_candles", Val.none),
   ("order_types", Val.none),
   ("order_time_in_force", Val.none),
   ("stake_currency", Val.none),
   ("stake_amount", Val.none),
   ("protections", Val.none),
   ("startup_candle_count", Val.none),
   ("unfilledtimeout", Val.none),
   ("use_sell_signal", Val.bool true),
   ("sell_profit_only", Val.bool false),
   ("ignore_roi_if_buy_signal", Val.bool false),
   ("sell_profit_offset", Val.float 0),
   ("disable_dataframe_checks", Val.bool false),
   ("ignore_buying_expired_candle_after", Val.int 0)]

/-- The helper `StrategyResolver._override_attribute_helper`: configuration wins unless
the attribute is a class `property`; else a non-`None` strategy value is
published into the configuration; else a non-`None` default is set on both;
else nothing happens.  Note the second branch fires on mere `hasattr`, so a
strategy attribute holding `None` blocks the default. -/
def overrideAttributeHelper (s : Strategy) (config : Config) (attrName : String)
    (dflt : Val) : Strategy × Config :=
  if (alistGet? config attrName).isSome && !s.isProp attrName then
    (s.setattr attrName ((alistGet? config attrName).getD Val.none), config)
  else if s.hasattr attrName then
    if s.getattrD attrName Val.none ≠ Val.none then
      (s, alistSet config attrName (s.getattrD attrName Val.none))
    else (s, config)
  else if dflt ≠ Val.none then
    (s.setattr attrName dflt, alistSet config attrName dflt)
  else (s, config)

/-- The override loop of `load_strategy` over an attribute catalog. -/
def runOverridesAux : Strategy → Config → List (String × Val) → Strategy × Config
  | s, c, [] => (s, c)
  | s, c, (a, d) :: rest =>
    let sc := overrideAttributeHelper s c a d
    runOverridesAux sc.1 sc.2 rest

/-- The override loop of `load_strategy` over the full fixed catalog. -/
def runOverrides (s : Strategy) (c : Config) : Strategy × Config :=
  runOverridesAux s c attributesCatalog

/-- The `minimal_roi` key coercion `int(key)`, applied left to right
(`{int(key): value for (key, value) in ....items()}` evaluates keys in
iteration order and fails at the first non-coercible key). -/
def coerceRoiKeys : List (Key × Val) → Except Err (List (Int × Val))
  | [] => Except.ok []
  | (k, v) :: rest =>
    match pyIntKey k with
    | Except.error e => Except.error e
    | Except.ok n =>
      match coerceRoiKeys rest with
      | Except.error e => Except.error e
      | Except.ok r => Except.ok ((n, v) :: r)

/-- Rebuilding the comprehension as a dictionary: a repeated coerced key
keeps its first position and takes its last value (Python dict semantics);
only the final key-to-value mapping matters for the subsequent sort. -/
def dedupRoi (l : List (Int × Val)) : List (Int × Val) :=
  l.foldl (fun acc p => alistSet acc p.1 p.2) []

/-- Ascending insertion by integer key, for `sorted(..., key=lambda t: t[0])`. -/
def insertRoiSorted (p : Int × Val) : List (Int × Val) → List (Int × Val)
  | [] => [p]
  | q :: qs => if p.1 ≤ q.1 then p :: q :: qs else q :: insertRoiSorted p qs

/-- Sort the coerced `minimal_roi` entries ascending by key. -/
def sortRoi : List (Int × Val) → List (Int × Val)
  | [] => []
  | p :: ps => insertRoiSorted p (sortRoi ps)

/-- The `minimal_roi` rebuild from `_normalize_attributes`:
`dict(sorted({int(key): value for (key, value) in v.items()}.items(), key=lambda t: t[0]))`.
A non-dictionary value (including `None`) has no `.items()` and raises
`AttributeError`. -/
def roiNorm : Val → Except Err Val
  | Val.dict l =>
    match coerceRoiKeys l with
    | Except.error e => Except.error e
    | Except.ok cl =>
      Except.ok (Val.dict ((sortRoi (dedupRoi cl)).map (fun p => (Key.int p.1, p.2))))
  | _ => Except.error (Err.attributeError "items")

/-- The `stoploss` coercion from `_normalize_attributes`: `float(v)`. -/
def stoplossNorm (v : Val) : Except Err Val :=
  match pyFloat v with
  | Except.error e => Except.error e
  | Except.ok q => Except.ok (Val.float q)

/-- The transformation `_normalize_attributes` applies to the value of a
given catalog attribute: `minimal_roi` is rebuilt, `stoploss` is coerced to
float, everything else is untouched. -/
def normalizeAttrValue (attrName : String) (v : Val) : Except Err Val :=
  if attrName = "minimal_roi" then roiNorm v
  else if attrName = "stoploss" then stoplossNorm v
  else Except.ok v

/-- The method `StrategyResolver._normalize_attributes`: first mirror `timeframe` onto
the deprecated `ticker_interval` unconditionally, then rebuild `minimal_roi`,
then coerce `stoploss`. -/
def normalizeTimeframe (s : Strategy) : Strategy :=
  match s.getattr? "timeframe" with
  | some tf => s.setattr "ticker_interval" tf
  | Option.none => s

def normalizeRoiStep (s : Strategy) : Except Err Strategy :=
  match s.getattr? "minimal_roi" with
  | some v => (roiNorm v).bind (fun v' => Except.ok (s.setattr "minimal_roi" v'))
  | Option.none => Except.ok s

def normalizeStoplossStep (s : Strategy) : Except Err Strategy :=
  match s.getattr? "stoploss" with
  | some w => (stoplossNorm w).bind (fun w' => Except.ok (s.setattr "stoploss" w'))
  | Option.none => Except.ok s

def normalizeAttributes (s : Strategy) : Except Err Strategy :=
  (normalizeRoiStep (normalizeTimeframe s)).bind normalizeStoplossStep

/-- Python `k in v` as used by the sanity validator (`v` is expected to be a
dictionary; a non-container raises `TypeError`). -/
def valContains (v : Val) (k : String) : Except Err Bool :=
  match v with
  | Val.dict l => Except.ok (alistGet? l (Key.str k)).isSome
  | _ => Except.error (Err.typeError "argument is not iterable")

/-- Python `all(k in v for k in required)` with short-circuiting: membership
checks stop at the first missing key. -/
def allContains (v : Val) : List String → Except Err Bool
  | [] => Except.ok true
  | k :: ks =>
    match valContains v k with
    | Except.error e => Except.error e
    | Except.ok b => if b then allContains v ks else Except.ok false

/-- The method `StrategyResolver._strategy_sanity_validations`: the `order_types`
mapping must contain every key of `REQUIRED_ORDERTYPES` and the
`order_time_in_force` mapping every key of `REQUIRED_ORDERTIF` (both are
collaborator constants from `freqtrade.constants`, passed as parameters);
a violation raises `ImportError` naming the strategy's class. -/
def sanityValidations (requiredOrdertypes requiredOrdertif : List String)
    (s : Strategy) : Except Err Unit :=
  (s.getattrE "order_types").bind (fun ot =>
  (allContains ot requiredOrdertypes).bind (fun b =>
  if !b then Except.error (Err.importError (orderTypesMsg s.className))
  else
    (s.getattrE "order_time_in_force").bind (fun tif =>
    (allContains tif requiredOrdertif).bind (fun b' =>
    if !b' then Except.error (Err.importError (orderTifMsg s.className))
    else Except.ok ()))))

/-- The method-arity bookkeeping at the bottom of `_load_strategy`: record
the three declared argument counts and, if any of them is exactly 2 (legacy
`(self, dataframe)` convention), set `INTERFACE_VERSION` to 1. -/
def afterArity (s : Strategy) : Strategy :=
  let s1 := s.setattr "_populate_fun_len" (Val.int (s.populateIndicatorsArgs : Int))
  let s2 := s1.setattr "_buy_fun_len" (Val.int (s.populateBuyTrendArgs : Int))
  let s3 := s2.setattr "_sell_fun_len" (Val.int (s.populateSellTrendArgs : Int))
  if s.populateIndicatorsArgs = 2 || s.populateBuyTrendArgs = 2 ||
      s.populateSellTrendArgs = 2 then
    s3.setattr "INTERFACE_VERSION" (Val.int 1)
  else s3

/-- The resolution pipeline `load_strategy` runs on a freshly loaded
instance: `ticker_interval` pre-pass, hyperopt overlay, override loop,
normalization, sanity validation; it yields the resolved instance together
with the (in-place mutated) configuration. -/
def resolvePipeline (requiredOrdertypes requiredOrdertif : List String)
    (s : Strategy) (c : Config) : Except Err (Strategy × Config) :=
  (hyperoptOverlay (tickerIntervalPrePass s c).1).bind (fun s2 =>
  (normalizeAttributes (runOverrides s2 c).1).bind (fun s4 =>
  (sanityValidations requiredOrdertypes requiredOrdertif s4).bind (fun _ =>
  Except.ok (s4, (runOverrides s2 c).2))))

/-- The entry point `StrategyResolver.load_strategy`, end to end.  The collaborators are
parameters: `locate` is `IResolver._load_object` over the final search paths
and effective name, `searchPaths` is the result of `build_search_paths`
(which already consumed `config.get('strategy_path')`), `tempDir` the fresh
temporary directory and `decode` the base64url/UTF-8 decoder. -/
def loadStrategy (locate : List String → List Char → Option Strategy)
    (requiredOrdertypes requiredOrdertif : List String)
    (searchPaths : List String) (tempDir : String)
    (decode : List Char → List Char) (config? : Option Config) :
    Except Err (Strategy × Config) :=
  let config := config?.getD []
  if !((alistGet? config "strategy").getD Val.none).toBool then
    Except.error (Err.operational noStrategyMsg)
  else
    match (alistGet? config "strategy").getD Val.none with
    | Val.str strategyName =>
      let m := materializeEncoded strategyName.toList searchPaths tempDir decode
      match locate m.paths m.effName with
      | Option.none => Except.error (Err.operational (notFoundMsg (String.mk m.effName)))
      | some strat =>
        resolvePipeline requiredOrdertypes requiredOrdertif (afterArity strat) config
    | _ => Except.error (Err.typeError "argument is not iterable")

/-- Modelled from the spec: the required `order_types` keys
(`REQUIRED_ORDERTYPES` lives in `freqtrade.constants`, outside the analyzed
source; §4.6 of the spec gives this illustrative key set).  The theorems
about the validator quantify over arbitrary required-key lists; this constant
only instantiates witnesses. -/
def demoRequiredOrdertypes : List String :=
  ["entry", "exit", "stoploss", "stoploss_on_exchange"]

/-- Modelled from the spec: the required `order_time_in_force` keys
(`REQUIRED_ORDERTIF` in `freqtrade.constants`, outside the analyzed source). -/
def demoRequiredOrdertif : List String := ["entry", "exit"]

/-- A complete `order_types` mapping for concrete runs. -/
def demoOrderTypes : Val :=
  Val.dict [(Key.str "entry", Val.str "limit"), (Key.str "exit", Val.str "limit"),
            (Key.str "stoploss", Val.str "limit"),
            (Key.str "stoploss_on_exchange", Val.bool false)]

/-- A complete `order_time_in_force` mapping for concrete runs. -/
def demoOrderTif : Val :=
  Val.dict [(Key.str "entry", Val.str "gtc"), (Key.str "exit", Val.str "gtc")]

/-- A plain strategy instance used to instantiate witnesses: no hyperopt
record, no properties, current-convention method arities. -/
def baseStrategy : Strategy :=
  { className := "SampleStrategy"
    attrs := [("_ft_params_from_file", Val.none),
              ("minimal_roi",
               Val.dict [(Key.str "20", Val.float (mkRat 1 20)),
                         (Key.str "0", Val.float (mkRat 1 10))]),
              ("stoploss", Val.float (mkRat (-1) 10)),
              ("timeframe", Val.str "5m"),
              ("order_types", demoOrderTypes),
              ("order_time_in_force", demoOrderTif)]
    props := []
    populateIndicatorsArgs := 3
    populateBuyTrendArgs := 3
    populateSellTrendArgs := 3 }

theorem alistGet?_set_self {K V : Type} [DecidableEq K] (l : List (K × V)) (k : K) (v : V) :
    alistGet? (alistSet l k v) k = some v := by
  induction l with
  | nil => simp [alistSet, alistGet?]
  | cons p t ih =>
    obtain ⟨k', w⟩ := p
    by_cases h : k' = k <;> simp [alistSet, alistGet?, h, ih]

theorem alistGet?_set_ne {K V : Type} [DecidableEq K] (l : List (K × V)) (k key : K) (v : V)
    (h : k ≠ key) : alistGet? (alistSet l k v) key = alistGet? l key := by
  induction l with
  | nil => simp [alistSet, alistGet?, h]
  | cons p t ih =>
    obtain ⟨k', w⟩ := p
    by_cases h' : k' = k
    · subst h'
      simp [alistSet, alistGet?, h]
    · simp [alistSet, alistGet?, h']
      by_cases h'' : k' = key <;> simp [h'', ih]

theorem setattr_props (s : Strategy) (n : String) (v : Val) :
    (s.setattr n v).props = s.props := rfl

theorem setattr_className (s : Strategy) (n : String) (v : Val) :
    (s.setattr n v).className = s.className := rfl

theorem isProp_setattr (s : Strategy) (n m : String) (v : Val) :
    (s.setattr n v).isProp m = s.isProp m := rfl

theorem getattr?_setattr_self (s : Strategy) (n : String) (v : Val)
    (h : s.isProp n = false) : (s.setattr n v).getattr? n = some v := by
  unfold Strategy.getattr? Strategy.setattr
  simp only []
  unfold Strategy.isProp at h
  cases hp : alistGet? s.props n with
  | some w => rw [hp] at h; simp at h
  | none => simp [alistGet?_set_self]

theorem getattr?_setattr_ne (s : Strategy) (n m : String) (v : Val) (h : n ≠ m) :
    (s.setattr n v).getattr? m = s.getattr? m := by
  unfold Strategy.getattr? Strategy.setattr
  simp only []
  rw [alistGet?_set_ne _ _ _ _ h]

theorem attrs_setattr_ne (s : Strategy) (n m : String) (v : Val) (h : n ≠ m) :
    alistGet? (s.setattr n v).attrs m = alistGet? s.attrs m := by
  unfold Strategy.setattr
  simp only []
  exact alistGet?_set_ne _ _ _ _ h

theorem pySplit_ne_nil (c : Char) (l : List Char) : pySplit c l ≠ [] := by
  induction l with
  | nil => simp [pySplit]
  | cons x xs ih =>
    unfold pySplit
    cases h : pySplit c xs with
    | nil => simp
    | cons hd tl => by_cases hx : x = c <;> simp [hx]

theorem pySplit_length (c : Char) (l : List Char) :
    (pySplit c l).length = l.count c + 1 := by
  induction l with
  | nil => simp [pySplit]
  | cons x xs ih =>
    unfold pySplit
    cases h : pySplit c xs with
    | nil => exact absurd h (pySplit_ne_nil c xs)
    | cons hd tl =>
      rw [h] at ih
      change (if x = c then [] :: hd :: tl else (x :: hd) :: tl).length =
        (x :: xs).count c + 1
      by_cases hx : x = c
      · subst hx
        rw [if_pos rfl]
        simp [List.count_cons] at ih ⊢
        omega
      · rw [if_neg hx]
        simp [List.count_cons, hx] at ih ⊢
        omega

/-- C8: for any strategy-name token, encoded-source materialization (using
the part before the separator as the effective name, prepending the fresh
temporary directory to the search path, and writing the decoded payload as
`<name>.py` plus an empty `__init__.py`) activates exactly when splitting on
`":"` yields two parts, i.e. when the token contains exactly one separator;
for any other separator count nothing is touched: the original token is the
effective name, the search path is unchanged and no file is written. -/
theorem strategyResolver_C8 (name : List Char) (paths : List String) (tempDir : String)
    (decode : List Char → List Char) :
    ((pySplit ':' name).length = 2 ↔ name.count ':' = 1)
    ∧ (name.count ':' = 1 →
        materializeEncoded name paths tempDir decode =
          { effName := (pySplit ':' name).headI
            paths := tempDir :: paths
            written := [((pySplit ':' name).headI ++ ".py".toList,
                         decode (pySplit ':' name).tail.headI),
                        ("__init__.py".toList, [])] })
    ∧ (name.count ':' ≠ 1 →
        materializeEncoded name paths tempDir decode =
          { effName := name, paths := paths, written := [] }) := by
  have hlen := pySplit_length ':' name
  refine ⟨by omega, ?_, ?_⟩
  · intro h1
    have hmem : ':' ∈ name := by
      have : 0 < name.count ':' := by omega
      exact List.count_pos_iff.mp this
    have hcont : name.contains ':' = true := by
      simpa using hmem
    have h2 : (pySplit ':' name).length = 2 := by omega
    unfold materializeEncoded
    rw [if_pos hcont]
    cases hsp : pySplit ':' name with
    | nil => exact absurd hsp (pySplit_ne_nil ':' name)
    | cons a t =>
      cases t with
      | nil => rw [hsp] at h2; simp at h2
      | cons b u =>
        cases u with
        | nil => rfl
        | cons d w => rw [hsp] at h2; simp at h2
  · intro h1
    by_cases hcont : name.contains ':' = true
    · unfold materializeEncoded
      rw [if_pos hcont]
      cases hsp : pySplit ':' name with
      | nil => exact absurd hsp (pySplit_ne_nil ':' name)
      | cons a t =>
        cases t with
        | nil => rfl
        | cons b u =>
          cases u with
          | nil =>
            rw [hsp] at hlen
            simp at hlen
            omega
          | cons d w => rfl
    · unfold materializeEncoded
      rw [if_neg hcont]

theorem strategyResolver_C8_witness :
    materializeEncoded "MyStrat:QUJD".toList ["user_data/strategies"] "/tmp/t"
        (fun l => l) =
      { effName := "MyStrat".toList
        paths := ["/tmp/t", "user_data/strategies"]
        written := [("MyStrat.py".toList, "QUJD".toList), ("__init__.py".toList, [])] } := by
  have h := (strategyResolver_C8 "MyStrat:QUJD".toList ["user_data/strategies"] "/tmp/t"
    (fun l => l)).2.1 (by decide)
  rw [h]
  decide

theorem hasattr_false_isProp_false (s : Strategy) (n : String)
    (h : s.hasattr n = false) : s.isProp n = false := by
  unfold Strategy.hasattr Strategy.getattr? at h
  unfold Strategy.isProp
  cases hp : alistGet? s.props n with
  | some v => rw [hp] at h; simp at h
  | none => rfl

/-- A strategy exposing only the deprecated `ticker_interval`, used to refute
C4's direction of the compatibility copy. -/
def tickerOnlyStrategy : Strategy :=
  { className := "TickerOnly"
    attrs := [("ticker_interval", Val.str "5m")]
    props := []
    populateIndicatorsArgs := 3
    populateBuyTrendArgs := 3
    populateSellTrendArgs := 3 }

/-- C4 counterexample: the claim's activation condition (plugin lacks
`ticker_interval`, has `timeframe`) is false for `tickerOnlyStrategy`, so per
the claim the pre-pass should change nothing; the code changes the instance,
copying `ticker_interval` onto `timeframe` — the claim has the directions of
the copy swapped. -/
theorem strategyResolver_C4_counterexample :
    tickerOnlyStrategy.hasattr "ticker_interval" = true
    ∧ tickerOnlyStrategy.hasattr "timeframe" = false
    ∧ alistGet? ([] : Config) "timeframe" = Option.none
    ∧ (tickerIntervalPrePass tickerOnlyStrategy []).1 ≠ tickerOnlyStrategy
    ∧ (tickerIntervalPrePass tickerOnlyStrategy []).1.getattr? "timeframe" =
        some (Val.str "5m") := by
  decide

/-- C4 amended: the pre-pass copies in the opposite direction from the
claim: when the instance has the deprecated `ticker_interval`, lacks
`timeframe`, and the configuration has no `timeframe` entry, `timeframe` is
set from `ticker_interval` and the deprecation warning is emitted; in every
other combination the pre-pass changes nothing and logs nothing. -/
theorem strategyResolver_C4_amended (s : Strategy) (c : Config) :
    (s.hasattr "ticker_interval" = true → s.hasattr "timeframe" = false →
      alistGet? c "timeframe" = Option.none →
      (tickerIntervalPrePass s c).1.getattr? "timeframe" = s.getattr? "ticker_interval"
      ∧ (tickerIntervalPrePass s c).2 = [deprecatedTimeframeMsg])
    ∧ (¬(s.hasattr "ticker_interval" = true ∧ s.hasattr "timeframe" = false
        ∧ alistGet? c "timeframe" = Option.none) →
      tickerIntervalPrePass s c = (s, [])) := by
  constructor
  · intro h1 h2 h3
    unfold tickerIntervalPrePass
    rw [h1, h2]
    simp only [Bool.not_false, Bool.and_true, h3, Option.isNone_none, if_pos rfl, if_true]
    constructor
    · rw [getattr?_setattr_self _ _ _ (hasattr_false_isProp_false s _ h2)]
      unfold Strategy.getattrD
      cases hv : s.getattr? "ticker_interval" with
      | some v => rfl
      | none =>
        unfold Strategy.hasattr at h1
        rw [hv] at h1
        simp at h1
    · trivial
  · intro hn
    unfold tickerIntervalPrePass
    by_cases h1 : s.hasattr "ticker_interval" = true
    · by_cases h2 : s.hasattr "timeframe" = false
      · have h3 : ¬alistGet? c "timeframe" = Option.none := fun h3 => hn ⟨h1, h2, h3⟩
        rw [h1, h2]
        simp only [Bool.not_false, Bool.and_true, if_true]
        rw [if_neg (by simpa [Option.isNone_iff_eq_none] using h3)]
      · have h2' : s.hasattr "timeframe" = true := by
          cases hb : s.hasattr "timeframe"
          · exact absurd hb h2
          · rfl
        rw [h1, h2']
        simp
    · have h1' : s.hasattr "ticker_interval" = false := by
        cases hb : s.hasattr "ticker_interval"
        · rfl
        · exact absurd hb h1
      rw [h1']
      simp

theorem strategyResolver_C4_amended_witness :
    (tickerIntervalPrePass tickerOnlyStrategy []).1.getattr? "timeframe" =
      some (Val.str "5m")
    ∧ (tickerIntervalPrePass tickerOnlyStrategy []).2 = [deprecatedTimeframeMsg] := by
  have h := (strategyResolver_C4_amended tickerOnlyStrategy []).1
    (by decide) (by decide) (by decide)
  exact ⟨by rw [h.1]; decide, h.2⟩

/-- C7: after `_load_strategy`'s arity bookkeeping, `INTERFACE_VERSION` is
set to the legacy value 1 exactly when at least one of the three inspected
methods declares exactly two parameters; otherwise the marker is whatever
the instance already exposed.  In particular an indicator-population method
of arity 2 forces the legacy marker regardless of the other two arities.
(The hypothesis records that `INTERFACE_VERSION` is a plain attribute, not a
`property` — which is what `IStrategy` declares.) -/
theorem strategyResolver_C7 (s : Strategy)
    (h : s.isProp "INTERFACE_VERSION" = false) :
    ((s.populateIndicatorsArgs = 2 ∨ s.populateBuyTrendArgs = 2 ∨
        s.populateSellTrendArgs = 2) →
      (afterArity s).getattr? "INTERFACE_VERSION" = some (Val.int 1))
    ∧ (¬(s.populateIndicatorsArgs = 2 ∨ s.populateBuyTrendArgs = 2 ∨
        s.populateSellTrendArgs = 2) →
      (afterArity s).getattr? "INTERFACE_VERSION" = s.getattr? "INTERFACE_VERSION")
    ∧ (s.populateIndicatorsArgs = 2 →
      (afterArity s).getattr? "INTERFACE_VERSION" = some (Val.int 1)) := by
  have hcond : ∀ hp : s.populateIndicatorsArgs = 2 ∨ s.populateBuyTrendArgs = 2 ∨
      s.populateSellTrendArgs = 2,
      (afterArity s).getattr? "INTERFACE_VERSION" = some (Val.int 1) := by
    intro hp
    unfold afterArity
    rw [if_pos (by simp only [Bool.or_eq_true, decide_eq_true_eq]; tauto)]
    exact getattr?_setattr_self _ _ _ (by simp [isProp_setattr, h])
  refine ⟨hcond, ?_, fun hp => hcond (Or.inl hp)⟩
  intro hp
  unfold afterArity
  rw [if_neg (by simp only [Bool.or_eq_true, decide_eq_true_eq]; tauto)]
  rw [getattr?_setattr_ne _ _ _ _ (by decide), getattr?_setattr_ne _ _ _ _ (by decide),
    getattr?_setattr_ne _ _ _ _ (by decide)]

/-- A strategy with a legacy (arity-2) indicator-population method. -/
def legacyStrategy : Strategy :=
  { baseStrategy with populateIndicatorsArgs := 2 }

theorem strategyResolver_C7_witness :
    (afterArity legacyStrategy).getattr? "INTERFACE_VERSION" = some (Val.int 1) :=
  (strategyResolver_C7 legacyStrategy (by decide)).2.2 (by decide)

theorem noStrategyMsg_ne_notFoundMsg (n : String) : noStrategyMsg ≠ notFoundMsg n := by
  obtain ⟨l⟩ := n
  intro h
  have h2 : noStrategyMsg.data.head? = (notFoundMsg (String.mk l)).data.head? :=
    congrArg (fun s => s.data.head?) h
  rw [show noStrategyMsg.data.head? = some 'N' from rfl] at h2
  rw [show (notFoundMsg (String.mk l)).data.head? = some 'I' from rfl] at h2
  exact absurd h2 (by decide)

/-- C9: with no configuration at all, or a configuration lacking a
`strategy` entry, `load_strategy` fails with the configuration-error
`OperationalException` carrying the supply-a-strategy guidance — uniformly
for every locator, so the failure is raised before any plugin lookup, and
its message differs from every plugin-not-found message. -/
theorem strategyResolver_C9 (locate : List String → List Char → Option Strategy)
    (reqOT reqTIF : List String) (searchPaths : List String) (tempDir : String)
    (decode : List Char → List Char) (config? : Option Config)
    (h : config? = Option.none ∨
      ∃ c, config? = some c ∧ alistGet? c "strategy" = Option.none) :
    loadStrategy locate reqOT reqTIF searchPaths tempDir decode config? =
      Except.error (Err.operational noStrategyMsg)
    ∧ ∀ n, Err.operational noStrategyMsg ≠ Err.operational (notFoundMsg n) := by
  constructor
  · rcases h with h | ⟨c, hc, hget⟩
    · subst h
      rfl
    · subst hc
      unfold loadStrategy
      simp only [Option.getD_some, hget]
      rfl
  · intro n hn
    injection hn with hmsg
    exact noStrategyMsg_ne_notFoundMsg n hmsg

theorem strategyResolver_C9_witness :
    loadStrategy (fun _ _ => some baseStrategy) demoRequiredOrdertypes
        demoRequiredOrdertif ["user_data/strategies"] "/tmp/strat" (fun l => l)
        Option.none =
      Except.error (Err.operational noStrategyMsg) :=
  (strategyResolver_C9 (fun _ _ => some baseStrategy) demoRequiredOrdertypes
    demoRequiredOrdertif ["user_data/strategies"] "/tmp/strat" (fun l => l)
    Option.none (Or.inl rfl)).1

theorem isProp_congr (s s' : Strategy) (h : s'.props = s.props) (A : String) :
    s'.isProp A = s.isProp A := by
  unfold Strategy.isProp
  rw [h]

theorem getattr?_none_isProp_false (s : Strategy) (A : String)
    (h : s.getattr? A = Option.none) : s.isProp A = false := by
  unfold Strategy.getattr? at h
  unfold Strategy.isProp
  cases hp : alistGet? s.props A with
  | some v => rw [hp] at h; exact absurd h (by simp)
  | none => rfl

theorem helper_props (s : Strategy) (c : Config) (a : String) (d : Val) :
    (overrideAttributeHelper s c a d).1.props = s.props := by
  unfold overrideAttributeHelper
  split_ifs <;> rfl

theorem helper_preserve (s : Strategy) (c : Config) (a : String) (d : Val) (A : String)
    (hne : a ≠ A) :
    (overrideAttributeHelper s c a d).1.getattr? A = s.getattr? A
    ∧ alistGet? (overrideAttributeHelper s c a d).2 A = alistGet? c A
    ∧ alistGet? (overrideAttributeHelper s c a d).1.attrs A = alistGet? s.attrs A := by
  unfold overrideAttributeHelper
  split_ifs <;>
    simp [getattr?_setattr_ne _ _ _ _ hne, attrs_setattr_ne _ _ _ _ hne,
      alistGet?_set_ne _ _ _ _ hne]

theorem helper_config_wins (s : Strategy) (c : Config) (a : String) (d v : Val)
    (hc : alistGet? c a = some v) (hp : s.isProp a = false) :
    overrideAttributeHelper s c a d = (s.setattr a v, c) := by
  unfold overrideAttributeHelper
  rw [if_pos (by rw [hc, hp]; rfl)]
  rw [hc]
  rfl

theorem helper_publish (s : Strategy) (c : Config) (a : String) (d v : Val)
    (hc : alistGet? c a = Option.none) (hs : s.getattr? a = some v) (hv : v ≠ Val.none) :
    overrideAttributeHelper s c a d = (s, alistSet c a v) := by
  unfold overrideAttributeHelper
  rw [if_neg (by rw [hc]; simp)]
  rw [if_pos (by unfold Strategy.hasattr; rw [hs]; rfl)]
  simp only [Strategy.getattrD, hs, Option.getD_some]
  rw [if_pos hv]

theorem helper_null (s : Strategy) (c : Config) (a : String) (d : Val)
    (hc : alistGet? c a = Option.none) (hs : s.getattr? a = some Val.none) :
    overrideAttributeHelper s c a d = (s, c) := by
  unfold overrideAttributeHelper
  rw [if_neg (by rw [hc]; simp)]
  rw [if_pos (by unfold Strategy.hasattr; rw [hs]; rfl)]
  simp only [Strategy.getattrD, hs, Option.getD_some]
  rw [if_neg (by simp)]

theorem helper_default (s : Strategy) (c : Config) (a : String) (d : Val)
    (hc : alistGet? c a = Option.none) (hs : s.getattr? a = Option.none)
    (hd : d ≠ Val.none) :
    overrideAttributeHelper s c a d = (s.setattr a d, alistSet c a d) := by
  unfold overrideAttributeHelper
  rw [if_neg (by rw [hc]; simp)]
  rw [if_neg (by unfold Strategy.hasattr; rw [hs]; simp)]
  rw [if_pos hd]

theorem helper_property (s : Strategy) (c : Config) (a : String) (d v : Val)
    (hc : (alistGet? c a).isSome = true) (hpv : alistGet? s.props a = some v)
    (hv : v ≠ Val.none) :
    overrideAttributeHelper s c a d = (s, alistSet c a v) := by
  have hprop : s.isProp a = true := by unfold Strategy.isProp; rw [hpv]; rfl
  have hget : s.getattr? a = some v := by unfold Strategy.getattr?; rw [hpv]
  unfold overrideAttributeHelper
  rw [if_neg (by rw [hprop, hc]; simp)]
  rw [if_pos (by unfold Strategy.hasattr; rw [hget]; rfl)]
  simp only [Strategy.getattrD, hget, Option.getD_some]
  rw [if_pos hv]

theorem runOverridesAux_props (cat : List (String × Val)) (s : Strategy) (c : Config) :
    (runOverridesAux s c cat).1.props = s.props := by
  induction cat generalizing s c with
  | nil => rfl
  | cons p t ih =>
    obtain ⟨a, d⟩ := p
    unfold runOverridesAux
    exact (ih _ _).trans (helper_props s c a d)

theorem runOverridesAux_preserve (cat : List (String × Val)) (s : Strategy) (c : Config)
    (A : String) (h : ∀ p ∈ cat, p.1 ≠ A) :
    (runOverridesAux s c cat).1.getattr? A = s.getattr? A
    ∧ alistGet? (runOverridesAux s c cat).2 A = alistGet? c A
    ∧ alistGet? (runOverridesAux s c cat).1.attrs A = alistGet? s.attrs A := by
  induction cat generalizing s c with
  | nil => exact ⟨rfl, rfl, rfl⟩
  | cons p t ih =>
    obtain ⟨a, d⟩ := p
    have hne : a ≠ A := h (a, d) (List.mem_cons_self _ _)
    have h' : ∀ p ∈ t, p.1 ≠ A := fun p hp => h p (List.mem_cons_of_mem _ hp)
    unfold runOverridesAux
    obtain ⟨h1, h2, h3⟩ := helper_preserve s c a d A hne
    obtain ⟨g1, g2, g3⟩ := ih (overrideAttributeHelper s c a d).1
      (overrideAttributeHelper s c a d).2 h'
    exact ⟨g1.trans h1, g2.trans h2, g3.trans h3⟩

theorem mem_map_fst_ne {t : List (String × Val)} {a : String}
    (hna : a ∉ t.map Prod.fst) (p : String × Val) (hp : p ∈ t) (he : p.1 = a) : False :=
  hna (he ▸ List.mem_map_of_mem Prod.fst hp)

theorem runOverridesAux_config_wins (cat : List (String × Val)) (s : Strategy)
    (c : Config) (A : String) (v : Val) (hnd : (cat.map Prod.fst).Nodup)
    (hmem : A ∈ cat.map Prod.fst) (hc : alistGet? c A = some v)
    (hp : s.isProp A = false) :
    (runOverridesAux s c cat).1.getattr? A = some v
    ∧ alistGet? (runOverridesAux s c cat).2 A = some v := by
  induction cat generalizing s c with
  | nil => simp at hmem
  | cons p t ih =>
    obtain ⟨a, d⟩ := p
    simp only [List.map_cons, List.nodup_cons] at hnd
    obtain ⟨hna, hndt⟩ := hnd
    unfold runOverridesAux
    rcases List.mem_cons.mp hmem with he | hmemt
    · subst he
      rw [helper_config_wins s c A d v hc hp]
      have hpres := runOverridesAux_preserve t (s.setattr A v) c A
        (fun p hp' he => mem_map_fst_ne hna p hp' he)
      refine ⟨hpres.1.trans ?_, hpres.2.1.trans hc⟩
      exact getattr?_setattr_self s A v hp
    · have hne : a ≠ A := fun he => (he ▸ hna) hmemt
      obtain ⟨h1, h2, h3⟩ := helper_preserve s c a d A hne
      have hp' : (overrideAttributeHelper s c a d).1.isProp A = false := by
        rw [isProp_congr _ _ (helper_props s c a d) A]
        exact hp
      exact ih _ _ hndt hmemt (h2.trans hc) hp'

theorem runOverridesAux_publish (cat : List (String × Val)) (s : Strategy)
    (c : Config) (A : String) (v : Val) (hnd : (cat.map Prod.fst).Nodup)
    (hmem : A ∈ cat.map Prod.fst) (hc : alistGet? c A = Option.none)
    (hs : s.getattr? A = some v) (hv : v ≠ Val.none) :
    (runOverridesAux s c cat).1.getattr? A = some v
    ∧ alistGet? (runOverridesAux s c cat).2 A = some v := by
  induction cat generalizing s c with
  | nil => simp at hmem
  | cons p t ih =>
    obtain ⟨a, d⟩ := p
    simp only [List.map_cons, List.nodup_cons] at hnd
    obtain ⟨hna, hndt⟩ := hnd
    unfold runOverridesAux
    rcases List.mem_cons.mp hmem with he | hmemt
    · subst he
      rw [helper_publish s c A d v hc hs hv]
      have hpres := runOverridesAux_preserve t s (alistSet c A v) A
        (fun p hp' he => mem_map_fst_ne hna p hp' he)
      exact ⟨hpres.1.trans hs, hpres.2.1.trans (alistGet?_set_self c A v)⟩
    · have hne : a ≠ A := fun he => (he ▸ hna) hmemt
      obtain ⟨h1, h2, h3⟩ := helper_preserve s c a d A hne
      exact ih _ _ hndt hmemt (h2.trans hc) (h1.trans hs)

theorem runOverridesAux_null (cat : List (String × Val)) (s : Strategy) (c : Config)
    (A : String) (hc : alistGet? c A = Option.none)
    (hs : s.getattr? A = some Val.none) :
    (runOverridesAux s c cat).1.getattr? A = some Val.none
    ∧ alistGet? (runOverridesAux s c cat).2 A = Option.none := by
  induction cat generalizing s c with
  | nil => exact ⟨hs, hc⟩
  | cons p t ih =>
    obtain ⟨a, d⟩ := p
    unfold runOverridesAux
    by_cases hne : a = A
    · subst hne
      rw [helper_null s c a d hc hs]
      exact ih s c hc hs
    · obtain ⟨h1, h2, h3⟩ := helper_preserve s c a d A hne
      exact ih _ _ (h2.trans hc) (h1.trans hs)

theorem runOverridesAux_default (cat : List (String × Val)) (s : Strategy)
    (c : Config) (A : String) (d : Val) (hnd : (cat.map Prod.fst).Nodup)
    (hmem : (A, d) ∈ cat) (hc : alistGet? c A = Option.none)
    (hs : s.getattr? A = Option.none) (hd : d ≠ Val.none) :
    (runOverridesAux s c cat).1.getattr? A = some d
    ∧ alistGet? (runOverridesAux s c cat).2 A = some d := by
  induction cat generalizing s c with
  | nil => simp at hmem
  | cons p t ih =>
    obtain ⟨a, e⟩ := p
    simp only [List.map_cons, List.nodup_cons] at hnd
    obtain ⟨hna, hndt⟩ := hnd
    unfold runOverridesAux
    by_cases hne : a = A
    · subst hne
      have hde : e = d := by
        rcases List.mem_cons.mp hmem with he | hmemt
        · exact (Prod.mk.injEq _ _ _ _ ▸ he.symm).2.symm ▸ rfl
        · exact absurd (List.mem_map_of_mem Prod.fst hmemt) hna
      subst hde
      rw [helper_default s c a e hc hs hd]
      have hpres := runOverridesAux_preserve t (s.setattr a e) (alistSet c a e) a
        (fun p hp' he => mem_map_fst_ne hna p hp' he)
      refine ⟨hpres.1.trans ?_, hpres.2.1.trans (alistGet?_set_self c a e)⟩
      exact getattr?_setattr_self s a e (getattr?_none_isProp_false s a hs)
    · have hmemt : (A, d) ∈ t := by
        rcases List.mem_cons.mp hmem with he | hmemt
        · exact absurd (congrArg Prod.fst he).symm hne
        · exact hmemt
      obtain ⟨h1, h2, h3⟩ := helper_preserve s c a e A hne
      exact ih _ _ hndt hmemt (h2.trans hc) (h1.trans hs)

theorem runOverridesAux_property (cat : List (String × Val)) (s : Strategy)
    (c : Config) (A : String) (v : Val) (hnd : (cat.map Prod.fst).Nodup)
    (hmem : A ∈ cat.map Prod.fst) (hc : (alistGet? c A).isSome = true)
    (hpv : alistGet? s.props A = some v) (hv : v ≠ Val.none) :
    alistGet? (runOverridesAux s c cat).1.attrs A = alistGet? s.attrs A
    ∧ alistGet? (runOverridesAux s c cat).2 A = some v := by
  induction cat generalizing s c with
  | nil => simp at hmem
  | cons p t ih =>
    obtain ⟨a, d⟩ := p
    simp only [List.map_cons, List.nodup_cons] at hnd
    obtain ⟨hna, hndt⟩ := hnd
    unfold runOverridesAux
    rcases List.mem_cons.mp hmem with he | hmemt
    · subst he
      rw [helper_property s c A d v hc hpv hv]
      have hpres := runOverridesAux_preserve t s (alistSet c A v) A
        (fun p hp' he => mem_map_fst_ne hna p hp' he)
      exact ⟨hpres.2.2, hpres.2.1.trans (alistGet?_set_self c A v)⟩
    · have hne : a ≠ A := fun he => (he ▸ hna) hmemt
      obtain ⟨h1, h2, h3⟩ := helper_preserve s c a d A hne
      have hpv' : alistGet? (overrideAttributeHelper s c a d).1.props A = some v := by
        rw [helper_props s c a d]
        exact hpv
      have hc' : (alistGet? (overrideAttributeHelper s c a d).2 A).isSome = true := by
        rw [h2]
        exact hc
      obtain ⟨g1, g2⟩ := ih _ _ hndt hmemt hc' hpv'
      exact ⟨g1.trans h3, g2⟩

theorem attributesCatalog_nodup : (attributesCatalog.map Prod.fst).Nodup := by decide

theorem except_bind_ok {α β : Type} (x : Except Err α) (f : α → Except Err β) (b : β)
    (h : x.bind f = Except.ok b) : ∃ a, x = Except.ok a ∧ f a = Except.ok b := by
  cases x with
  | error e => exact absurd h (by simp [Except.bind])
  | ok a => exact ⟨a, rfl, h⟩

theorem prePass_props (s : Strategy) (c : Config) :
    (tickerIntervalPrePass s c).1.props = s.props := by
  unfold tickerIntervalPrePass
  split_ifs <;> rfl

theorem prePass_preserve_ne (s : Strategy) (c : Config) (A : String)
    (hA : A ≠ "timeframe") :
    (tickerIntervalPrePass s c).1.getattr? A = s.getattr? A := by
  unfold tickerIntervalPrePass
  split_ifs with h1 h2
  · exact getattr?_setattr_ne _ _ _ _ (fun he => hA he.symm)
  · rfl
  · rfl

theorem prePass_preserve_some (s : Strategy) (c : Config) (A : String) (v : Val)
    (hv : s.getattr? A = some v) :
    (tickerIntervalPrePass s c).1.getattr? A = some v := by
  by_cases hA : A = "timeframe"
  · subst hA
    unfold tickerIntervalPrePass
    split_ifs with h1 h2
    · simp only [Bool.and_eq_true, Bool.not_eq_true'] at h1
      unfold Strategy.hasattr at h1
      rw [hv] at h1
      exact absurd h1.2 (by simp)
    · exact hv
    · exact hv
  · rw [prePass_preserve_ne s c A hA]
    exact hv

theorem prePass_attrs_preserve (s : Strategy) (c : Config) (A : String)
    (hA : A ≠ "timeframe" ∨ s.hasattr "timeframe" = true) :
    alistGet? (tickerIntervalPrePass s c).1.attrs A = alistGet? s.attrs A := by
  unfold tickerIntervalPrePass
  split_ifs with h1 h2
  · rcases hA with hA | hA
    · exact attrs_setattr_ne _ _ _ _ (fun he => hA he.symm)
    · simp only [Bool.and_eq_true, Bool.not_eq_true'] at h1
      rw [hA] at h1
      exact absurd h1.2 (by simp)
  · rfl
  · rfl

theorem overlayField_ok (r : Val) (k : String) (s s' : Strategy) (a : String)
    (h : overlayField r k s a = Except.ok s') :
    ∃ v, s' = s.setattr a v ∧ (s.getattr? a).isSome = true := by
  unfold overlayField at h
  cases hvg : valGet r k (s.getattrE a) with
  | error e => rw [hvg] at h; exact absurd h (by simp)
  | ok v =>
    rw [hvg] at h
    injection h with h'
    refine ⟨v, h'.symm, ?_⟩
    unfold valGet at hvg
    cases r with
    | dict l =>
      unfold Strategy.getattrE at hvg
      cases hg : s.getattr? a with
      | some w => simp [hg]
      | none => rw [hg] at hvg; exact absurd hvg (by simp)
    | none => exact absurd hvg (by simp)
    | bool b => exact absurd hvg (by simp)
    | int n => exact absurd hvg (by simp)
    | float q => exact absurd hvg (by simp)
    | str t => exact absurd hvg (by simp)

theorem hyperoptOverlay_shape (s s' : Strategy)
    (h : hyperoptOverlay s = Except.ok s') :
    (∃ p, s.getattr? "_ft_params_from_file" = some p)
    ∧ (s' = s
      ∨ ∃ v1 v2 v3 v4 v5 v6,
          s' = ((((((s.setattr "minimal_roi" v1).setattr "stoploss" v2).setattr
            "trailing_stop" v3).setattr "trailing_stop_positive" v4).setattr
            "trailing_stop_positive_offset" v5).setattr
            "trailing_only_offset_is_reached" v6)
          ∧ (s.getattr? "minimal_roi").isSome = true
          ∧ (s.getattr? "stoploss").isSome = true
          ∧ (s.getattr? "trailing_stop").isSome = true
          ∧ (s.getattr? "trailing_stop_positive").isSome = true
          ∧ (s.getattr? "trailing_stop_positive_offset").isSome = true
          ∧ (s.getattr? "trailing_only_offset_is_reached").isSome = true) := by
  unfold hyperoptOverlay at h
  obtain ⟨params, hE, h⟩ := except_bind_ok _ _ _ h
  have hparams : ∃ p, s.getattr? "_ft_params_from_file" = some p := by
    unfold Strategy.getattrE at hE
    cases hg : s.getattr? "_ft_params_from_file" with
    | some p => exact ⟨p, rfl⟩
    | none => rw [hg] at hE; exact absurd hE (by simp)
  refine ⟨hparams, ?_⟩
  by_cases ht : params.toBool
  · rw [if_pos ht] at h
    obtain ⟨s1, h1, h⟩ := except_bind_ok _ _ _ h
    obtain ⟨v1, he1, hi1⟩ := overlayField_ok _ _ _ _ _ h1
    obtain ⟨sd, hsd, h⟩ := except_bind_ok _ _ _ h
    obtain ⟨s2, h2, h⟩ := except_bind_ok _ _ _ h
    obtain ⟨v2, he2, hi2⟩ := overlayField_ok _ _ _ _ _ h2
    obtain ⟨tr, htr, h⟩ := except_bind_ok _ _ _ h
    obtain ⟨s3, h3, h⟩ := except_bind_ok _ _ _ h
    obtain ⟨v3, he3, hi3⟩ := overlayField_ok _ _ _ _ _ h3
    obtain ⟨s4, h4, h⟩ := except_bind_ok _ _ _ h
    obtain ⟨v4, he4, hi4⟩ := overlayField_ok _ _ _ _ _ h4
    obtain ⟨s5, h5, h⟩ := except_bind_ok _ _ _ h
    obtain ⟨v5, he5, hi5⟩ := overlayField_ok _ _ _ _ _ h5
    obtain ⟨s6, h6, h⟩ := except_bind_ok _ _ _ h
    obtain ⟨v6, he6, hi6⟩ := overlayField_ok _ _ _ _ _ h6
    injection h with h'
    subst h' he1 he2 he3 he4 he5 he6
    right
    refine ⟨v1, v2, v3, v4, v5, v6, rfl, hi1, ?_, ?_, ?_, ?_, ?_⟩
    · rw [getattr?_setattr_ne _ _ _ _ (by decide)] at hi2
      exact hi2
    · rw [getattr?_setattr_ne _ _ _ _ (by decide),
        getattr?_setattr_ne _ _ _ _ (by decide)] at hi3
      exact hi3
    · rw [getattr?_setattr_ne _ _ _ _ (by decide), getattr?_setattr_ne _ _ _ _ (by decide),
        getattr?_setattr_ne _ _ _ _ (by decide)] at hi4
      exact hi4
    · rw [getattr?_setattr_ne _ _ _ _ (by decide), getattr?_setattr_ne _ _ _ _ (by decide),
        getattr?_setattr_ne _ _ _ _ (by decide),
        getattr?_setattr_ne _ _ _ _ (by decide)] at hi5
      exact hi5
    · rw [getattr?_setattr_ne _ _ _ _ (by decide), getattr?_setattr_ne _ _ _ _ (by decide),
        getattr?_setattr_ne _ _ _ _ (by decide), getattr?_setattr_ne _ _ _ _ (by decide),
        getattr?_setattr_ne _ _ _ _ (by decide)] at hi6
      exact hi6
  · rw [if_neg ht] at h
    injection h with h'
    exact Or.inl h'.symm

theorem hyperoptOverlay_props (s s' : Strategy) (h : hyperoptOverlay s = Except.ok s') :
    s'.props = s.props := by
  obtain ⟨_, hsh⟩ := hyperoptOverlay_shape s s' h
  rcases hsh with rfl | ⟨v1, v2, v3, v4, v5, v6, rfl, _⟩
  · rfl
  · rfl

theorem hyperoptOverlay_preserve_none (s s' : Strategy) (A : String)
    (h : hyperoptOverlay s = Except.ok s') (hA : s.getattr? A = Option.none) :
    s'.getattr? A = Option.none := by
  obtain ⟨_, hsh⟩ := hyperoptOverlay_shape s s' h
  rcases hsh with rfl | ⟨v1, v2, v3, v4, v5, v6, rfl, hi1, hi2, hi3, hi4, hi5, hi6⟩
  · exact hA
  · by_cases h1 : A = "minimal_roi"
    · subst h1; rw [hA] at hi1; exact absurd hi1 (by simp)
    · by_cases h2 : A = "stoploss"
      · subst h2; rw [hA] at hi2; exact absurd hi2 (by simp)
      · by_cases h3 : A = "trailing_stop"
        · subst h3; rw [hA] at hi3; exact absurd hi3 (by simp)
        · by_cases h4 : A = "trailing_stop_positive"
          · subst h4; rw [hA] at hi4; exact absurd hi4 (by simp)
          · by_cases h5 : A = "trailing_stop_positive_offset"
            · subst h5; rw [hA] at hi5; exact absurd hi5 (by simp)
            · by_cases h6 : A = "trailing_only_offset_is_reached"
              · subst h6; rw [hA] at hi6; exact absurd hi6 (by simp)
              · rw [getattr?_setattr_ne _ _ _ _ (fun he => h6 he.symm),
                  getattr?_setattr_ne _ _ _ _ (fun he => h5 he.symm),
                  getattr?_setattr_ne _ _ _ _ (fun he => h4 he.symm),
                  getattr?_setattr_ne _ _ _ _ (fun he => h3 he.symm),
                  getattr?_setattr_ne _ _ _ _ (fun he => h2 he.symm),
                  getattr?_setattr_ne _ _ _ _ (fun he => h1 he.symm)]
                exact hA

theorem hyperoptOverlay_noop (s : Strategy) (p : Val)
    (hp : s.getattr? "_ft_params_from_file" = some p) (ht : p.toBool = false) :
    hyperoptOverlay s = Except.ok s := by
  unfold hyperoptOverlay
  have hE : s.getattrE "_ft_params_from_file" = Except.ok p := by
    unfold Strategy.getattrE
    rw [hp]
  rw [hE]
  show (if p.toBool then _ else Except.ok s) = Except.ok s
  rw [ht]
  rfl

theorem normalizeTimeframe_props (s : Strategy) :
    (normalizeTimeframe s).props = s.props := by
  unfold normalizeTimeframe
  cases s.getattr? "timeframe" <;> rfl

theorem normalizeTimeframe_preserve (s : Strategy) (A : String)
    (hA : A ≠ "ticker_interval") :
    (normalizeTimeframe s).getattr? A = s.getattr? A := by
  unfold normalizeTimeframe
  cases s.getattr? "timeframe" with
  | none => rfl
  | some tf => exact getattr?_setattr_ne _ _ _ _ (fun he => hA he.symm)

theorem normalizeRoiStep_props (s s' : Strategy)
    (h : normalizeRoiStep s = Except.ok s') : s'.props = s.props := by
  unfold normalizeRoiStep at h
  cases hg : s.getattr? "minimal_roi" with
  | none => rw [hg] at h; injection h with h'; rw [← h']
  | some v =>
    rw [hg] at h
    obtain ⟨v', hv', h⟩ := except_bind_ok _ _ _ h
    injection h with h'
    rw [← h']
    rfl

theorem normalizeRoiStep_preserve (s s' : Strategy) (A : String)
    (h : normalizeRoiStep s = Except.ok s') (hA : A ≠ "minimal_roi") :
    s'.getattr? A = s.getattr? A := by
  unfold normalizeRoiStep at h
  cases hg : s.getattr? "minimal_roi" with
  | none => rw [hg] at h; injection h with h'; rw [← h']
  | some v =>
    rw [hg] at h
    obtain ⟨v', hv', h⟩ := except_bind_ok _ _ _ h
    injection h with h'
    rw [← h']
    exact getattr?_setattr_ne _ _ _ _ (fun he => hA he.symm)

theorem normalizeRoiStep_value (s s' : Strategy) (v : Val)
    (h : normalizeRoiStep s = Except.ok s') (hg : s.getattr? "minimal_roi" = some v)
    (hp : s.isProp "minimal_roi" = false) :
    ∃ v', roiNorm v = Except.ok v' ∧ s'.getattr? "minimal_roi" = some v' := by
  unfold normalizeRoiStep at h
  rw [hg] at h
  obtain ⟨v', hv', h⟩ := except_bind_ok _ _ _ h
  injection h with h'
  exact ⟨v', hv', by rw [← h']; exact getattr?_setattr_self _ _ _ hp⟩

theorem normalizeStoplossStep_props (s s' : Strategy)
    (h : normalizeStoplossStep s = Except.ok s') : s'.props = s.props := by
  unfold normalizeStoplossStep at h
  cases hg : s.getattr? "stoploss" with
  | none => rw [hg] at h; injection h with h'; rw [← h']
  | some v =>
    rw [hg] at h
    obtain ⟨v', hv', h⟩ := except_bind_ok _ _ _ h
    injection h with h'
    rw [← h']
    rfl

theorem normalizeStoplossStep_preserve (s s' : Strategy) (A : String)
    (h : normalizeStoplossStep s = Except.ok s') (hA : A ≠ "stoploss") :
    s'.getattr? A = s.getattr? A := by
  unfold normalizeStoplossStep at h
  cases hg : s.getattr? "stoploss" with
  | none => rw [hg] at h; injection h with h'; rw [← h']
  | some v =>
    rw [hg] at h
    obtain ⟨v', hv', h⟩ := except_bind_ok _ _ _ h
    injection h with h'
    rw [← h']
    exact getattr?_setattr_ne _ _ _ _ (fun he => hA he.symm)

theorem normalizeStoplossStep_value (s s' : Strategy) (v : Val)
    (h : normalizeStoplossStep s = Except.ok s') (hg : s.getattr? "stoploss" = some v)
    (hp : s.isProp "stoploss" = false) :
    ∃ v', stoplossNorm v = Except.ok v' ∧ s'.getattr? "stoploss" = some v' := by
  unfold normalizeStoplossStep at h
  rw [hg] at h
  obtain ⟨v', hv', h⟩ := except_bind_ok _ _ _ h
  injection h with h'
  exact ⟨v', hv', by rw [← h']; exact getattr?_setattr_self _ _ _ hp⟩

theorem normalizeAttributes_props (s s' : Strategy)
    (h : normalizeAttributes s = Except.ok s') : s'.props = s.props := by
  unfold normalizeAttributes at h
  obtain ⟨s2, h1, h2⟩ := except_bind_ok _ _ _ h
  rw [normalizeStoplossStep_props _ _ h2, normalizeRoiStep_props _ _ h1,
    normalizeTimeframe_props]

theorem normalizeAttributes_value (s s' : Strategy) (A : String) (w : Val)
    (h : normalizeAttributes s = Except.ok s') (hA : A ≠ "ticker_interval")
    (hp : s.isProp A = false) (hw : s.getattr? A = some w) :
    s'.getattr? A = (normalizeAttrValue A w).toOption := by
  unfold normalizeAttributes at h
  obtain ⟨s2, h1, h2⟩ := except_bind_ok _ _ _ h
  have hw1 : (normalizeTimeframe s).getattr? A = some w :=
    (normalizeTimeframe_preserve s A hA).trans hw
  have hp1 : (normalizeTimeframe s).isProp A = false := by
    rw [isProp_congr _ _ (normalizeTimeframe_props s) A]
    exact hp
  by_cases hA1 : A = "minimal_roi"
  · subst hA1
    obtain ⟨v', hv', hs2⟩ := normalizeRoiStep_value _ _ _ h1 hw1 hp1
    rw [normalizeStoplossStep_preserve _ _ _ h2 (by decide), hs2]
    unfold normalizeAttrValue
    rw [if_pos rfl, hv']
    rfl
  · by_cases hA2 : A = "stoploss"
    · subst hA2
      have hw2 : s2.getattr? "stoploss" = some w :=
        (normalizeRoiStep_preserve _ _ _ h1 (by decide)).trans hw1
      have hp2 : s2.isProp "stoploss" = false := by
        rw [isProp_congr _ _ (normalizeRoiStep_props _ _ h1) _]
        exact hp1
      obtain ⟨w', hw', hs'⟩ := normalizeStoplossStep_value _ _ _ h2 hw2 hp2
      rw [hs']
      unfold normalizeAttrValue
      rw [if_neg (by decide), if_pos rfl, hw']
      rfl
    · rw [normalizeStoplossStep_preserve _ _ _ h2 hA2,
        normalizeRoiStep_preserve _ _ _ h1 hA1, hw1]
      unfold normalizeAttrValue
      rw [if_neg hA1, if_neg hA2]
      rfl

theorem catalog_ne_ticker : ∀ p ∈ attributesCatalog, p.1 ≠ "ticker_interval" := by decide

theorem catalog_default_ne_timeframe :
    ∀ p ∈ attributesCatalog, p.2 ≠ Val.none → p.1 ≠ "timeframe" := by decide

/-- C1 amended: when a catalog attribute is present in configuration and is
not a class `property`, the resolved configuration still holds the caller's
value and the resolved plugin holds the image of that value under the
normalizer (`normalizeAttrValue`): the identical value for every attribute
except `minimal_roi` and `stoploss`, whose values are coerced
(integer-keyed/sorted rebuild, respectively `float()`), so plugin and
configuration can differ on those two after resolution. -/
theorem strategyResolver_C1_amended (reqOT reqTIF : List String) (s s' : Strategy)
    (c c' : Config) (A : String) (d v : Val)
    (hres : resolvePipeline reqOT reqTIF s c = Except.ok (s', c'))
    (hmem : (A, d) ∈ attributesCatalog)
    (hc : alistGet? c A = some v) (hp : s.isProp A = false) :
    alistGet? c' A = some v
    ∧ s'.getattr? A = (normalizeAttrValue A v).toOption
    ∧ (A ≠ "minimal_roi" → A ≠ "stoploss" → s'.getattr? A = some v) := by
  unfold resolvePipeline at hres
  obtain ⟨s2, hov, hres⟩ := except_bind_ok _ _ _ hres
  obtain ⟨s4, hnorm, hres⟩ := except_bind_ok _ _ _ hres
  obtain ⟨u, hsan, hres⟩ := except_bind_ok _ _ _ hres
  injection hres with hres'
  rw [Prod.mk.injEq] at hres'
  obtain ⟨hs4, hcfg⟩ := hres'
  have hprops2 : s2.props = s.props :=
    (hyperoptOverlay_props _ _ hov).trans (prePass_props s c)
  have hp2 : s2.isProp A = false := by
    rw [isProp_congr _ _ hprops2 A]
    exact hp
  have hAmem : A ∈ attributesCatalog.map Prod.fst := List.mem_map_of_mem Prod.fst hmem
  obtain ⟨hstrat, hconf⟩ := runOverridesAux_config_wins attributesCatalog s2 c A v
    attributesCatalog_nodup hAmem hc hp2
  have hAnt : A ≠ "ticker_interval" := catalog_ne_ticker (A, d) hmem
  have hp3 : (runOverridesAux s2 c attributesCatalog).1.isProp A = false := by
    rw [isProp_congr _ _ (runOverridesAux_props attributesCatalog s2 c) A]
    exact hp2
  have hval := normalizeAttributes_value _ _ A v hnorm hAnt hp3 hstrat
  refine ⟨?_, ?_, ?_⟩
  · rw [← hcfg]
    exact hconf
  · rw [← hs4]
    exact hval
  · intro h1 h2
    rw [← hs4, hval]
    unfold normalizeAttrValue
    rw [if_neg h1, if_neg h2]
    rfl

/-- A configuration supplying `stoploss` as a decimal string. -/
def c1Config : Config := [("stoploss", Val.str "-0.10")]

/-- C1 counterexample: with `stoploss = "-0.10"` (a string) in configuration,
resolution succeeds but the resolved plugin's `stoploss` is the float
`-0.10`, not the configuration's string value, so "the plugin instance's
attribute equals the configuration's value" fails as stated — the normalizer
coerces `stoploss` (and rebuilds `minimal_roi`) after the override pass. -/
theorem strategyResolver_C1_counterexample :
    ("stoploss", Val.none) ∈ attributesCatalog
    ∧ alistGet? c1Config "stoploss" = some (Val.str "-0.10")
    ∧ baseStrategy.isProp "stoploss" = false
    ∧ (resolvePipeline demoRequiredOrdertypes demoRequiredOrdertif baseStrategy
        c1Config).toOption.map (fun p => p.1.getattr? "stoploss") =
        some (some (Val.float (mkRat (-1) 10)))
    ∧ (resolvePipeline demoRequiredOrdertypes demoRequiredOrdertif baseStrategy
        c1Config).toOption.map (fun p => alistGet? p.2 "stoploss") =
        some (some (Val.str "-0.10"))
    ∧ some (Val.float (mkRat (-1) 10)) ≠ some (Val.str "-0.10") := by
  decide

theorem strategyResolver_C1_witness :
    (resolvePipeline demoRequiredOrdertypes demoRequiredOrdertif baseStrategy
        [("timeframe", Val.str "1h")]).toOption.map
      (fun p => (p.1.getattr? "timeframe", alistGet? p.2 "timeframe")) =
      some (some (Val.str "1h"), some (Val.str "1h")) := by
  cases hres : resolvePipeline demoRequiredOrdertypes demoRequiredOrdertif baseStrategy
      [("timeframe", Val.str "1h")] with
  | error e =>
    have hne : (resolvePipeline demoRequiredOrdertypes demoRequiredOrdertif baseStrategy
        [("timeframe", Val.str "1h")]).toOption ≠ Option.none := by decide
    exact absurd (by rw [hres]; rfl) hne
  | ok pr =>
    obtain ⟨s', c'⟩ := pr
    have h := strategyResolver_C1_amended demoRequiredOrdertypes demoRequiredOrdertif
      baseStrategy s' [("timeframe", Val.str "1h")] c' "timeframe" Val.none
      (Val.str "1h") hres (by decide) (by decide) (by decide)
    show some (s'.getattr? "timeframe", alistGet? c' "timeframe") = _
    rw [h.2.2 (by decide) (by decide), h.1]

theorem normalizeRoiStep_norm_ok (s s' : Strategy) (v : Val)
    (h : normalizeRoiStep s = Except.ok s') (hg : s.getattr? "minimal_roi" = some v) :
    ∃ v', roiNorm v = Except.ok v' := by
  unfold normalizeRoiStep at h
  rw [hg] at h
  obtain ⟨v', hv', _⟩ := except_bind_ok _ _ _ h
  exact ⟨v', hv'⟩

theorem normalizeStoplossStep_norm_ok (s s' : Strategy) (v : Val)
    (h : normalizeStoplossStep s = Except.ok s') (hg : s.getattr? "stoploss" = some v) :
    ∃ v', stoplossNorm v = Except.ok v' := by
  unfold normalizeStoplossStep at h
  rw [hg] at h
  obtain ⟨v', hv', _⟩ := except_bind_ok _ _ _ h
  exact ⟨v', hv'⟩

/-- C2 amended: a non-null catalog default is applied to both plugin and
configuration only when the plugin does not expose the attribute *at all*
(on the plugin side the final value is the normalizer's image of the
default: identical except for `minimal_roi`, whose default is rebuilt with
integer-sorted keys).  When the plugin exposes the attribute with an
explicit null and carries no truthy hyperparameter record, the override
engine's `hasattr` branch swallows the null — the default is not applied,
the plugin keeps the null and the configuration does not gain an entry.
(With a truthy record the overlay may first replace a null risk attribute
with the record's value before the override pass, and that replaced value
is then published into the configuration.) -/
theorem strategyResolver_C2_amended (reqOT reqTIF : List String) (s s' : Strategy)
    (c c' : Config) (A : String) (d : Val)
    (hres : resolvePipeline reqOT reqTIF s c = Except.ok (s', c'))
    (hmem : (A, d) ∈ attributesCatalog) (hd : d ≠ Val.none)
    (hc : alistGet? c A = Option.none) :
    (s.getattr? A = Option.none →
      alistGet? c' A = some d ∧ s'.getattr? A = (normalizeAttrValue A d).toOption)
    ∧ (∀ p, s.getattr? A = some Val.none →
      s.getattr? "_ft_params_from_file" = some p → p.toBool = false →
      s'.getattr? A = (normalizeAttrValue A Val.none).toOption
      ∧ alistGet? c' A = Option.none) := by
  unfold resolvePipeline at hres
  obtain ⟨s2, hov, hres⟩ := except_bind_ok _ _ _ hres
  obtain ⟨s4, hnorm, hres⟩ := except_bind_ok _ _ _ hres
  obtain ⟨u, hsan, hres⟩ := except_bind_ok _ _ _ hres
  injection hres with hres'
  rw [Prod.mk.injEq] at hres'
  obtain ⟨hs4, hcfg⟩ := hres'
  have hAnt : A ≠ "ticker_interval" := catalog_ne_ticker (A, d) hmem
  have hAtf : A ≠ "timeframe" := catalog_default_ne_timeframe (A, d) hmem hd
  constructor
  · intro hs
    have hs1 : (tickerIntervalPrePass s c).1.getattr? A = Option.none := by
      rw [prePass_preserve_ne s c A hAtf]
      exact hs
    have hs2 : s2.getattr? A = Option.none :=
      hyperoptOverlay_preserve_none _ _ _ hov hs1
    obtain ⟨hstrat, hconf⟩ := runOverridesAux_default attributesCatalog s2 c A d
      attributesCatalog_nodup hmem hc hs2 hd
    have hp3 : (runOverridesAux s2 c attributesCatalog).1.isProp A = false := by
      rw [isProp_congr _ _ (runOverridesAux_props attributesCatalog s2 c) A]
      exact getattr?_none_isProp_false s2 A hs2
    have hval := normalizeAttributes_value _ _ A d hnorm hAnt hp3 hstrat
    exact ⟨by rw [← hcfg]; exact hconf, by rw [← hs4]; exact hval⟩
  · intro p hs hft hpb
    have hs1 : (tickerIntervalPrePass s c).1.getattr? A = some Val.none :=
      prePass_preserve_some s c A Val.none hs
    have hft1 : (tickerIntervalPrePass s c).1.getattr? "_ft_params_from_file" =
        some p := by
      rw [prePass_preserve_ne s c _ (by decide)]
      exact hft
    have hov' : hyperoptOverlay (tickerIntervalPrePass s c).1 =
        Except.ok (tickerIntervalPrePass s c).1 :=
      hyperoptOverlay_noop _ _ hft1 hpb
    rw [hov] at hov'
    injection hov' with hs2eq
    obtain ⟨hstrat, hconf⟩ := runOverridesAux_null attributesCatalog s2 c A hc
      (by rw [hs2eq]; exact hs1)
    refine ⟨?_, by rw [← hcfg]; exact hconf⟩
    unfold normalizeAttributes at hnorm
    obtain ⟨s3, hroiStep, hslStep⟩ := except_bind_ok _ _ _ hnorm
    by_cases hA1 : A = "minimal_roi"
    · subst hA1
      have hg : (normalizeTimeframe (runOverridesAux s2 c attributesCatalog).1).getattr?
          "minimal_roi" = some Val.none := by
        rw [normalizeTimeframe_preserve _ _ (by decide)]
        exact hstrat
      obtain ⟨v', hv'⟩ := normalizeRoiStep_norm_ok _ _ _ hroiStep hg
      exact absurd hv' (by simp [roiNorm])
    · by_cases hA2 : A = "stoploss"
      · subst hA2
        have hg3 : s3.getattr? "stoploss" = some Val.none := by
          rw [normalizeRoiStep_preserve _ _ _ hroiStep (by decide),
            normalizeTimeframe_preserve _ _ (by decide)]
          exact hstrat
        obtain ⟨v', hv'⟩ := normalizeStoplossStep_norm_ok _ _ _ hslStep hg3
        exact absurd hv' (by simp [stoplossNorm, pyFloat])
      · have hstrat' : (runOverrides s2 c).1.getattr? A = some Val.none := hstrat
        rw [← hs4, normalizeStoplossStep_preserve _ _ _ hslStep hA2,
          normalizeRoiStep_preserve _ _ _ hroiStep hA1,
          normalizeTimeframe_preserve _ _ hAnt, hstrat']
        unfold normalizeAttrValue
        rw [if_neg hA1, if_neg hA2]
        rfl

/-- A strategy exposing `use_sell_signal` with an explicit Python `None`. -/
def c2Strategy : Strategy :=
  { baseStrategy with attrs := baseStrategy.attrs ++ [("use_sell_signal", Val.none)] }

/-- C2 counterexample: `use_sell_signal` has the non-null catalog default
`True`, is absent from configuration, and the plugin exposes it with an
explicit null — so per the claim both sides should end up holding `True`.
Resolution succeeds, yet the plugin keeps `None` and the configuration gains
no entry: the `hasattr` branch of the override helper swallows explicit
nulls before the default branch is reached. -/
theorem strategyResolver_C2_counterexample :
    ("use_sell_signal", Val.bool true) ∈ attributesCatalog
    ∧ alistGet? ([] : Config) "use_sell_signal" = Option.none
    ∧ c2Strategy.getattr? "use_sell_signal" = some Val.none
    ∧ (resolvePipeline demoRequiredOrdertypes demoRequiredOrdertif c2Strategy
        []).toOption.map (fun p => p.1.getattr? "use_sell_signal") =
        some (some Val.none)
    ∧ (resolvePipeline demoRequiredOrdertypes demoRequiredOrdertif c2Strategy
        []).toOption.map (fun p => alistGet? p.2 "use_sell_signal") =
        some Option.none
    ∧ some Val.none ≠ some (Val.bool true) := by
  decide

/-- Like `c2Strategy` (explicit null `use_sell_signal`) but carrying the
realistic falsy hyperopt record `{}` instead of `None`. -/
def c2FalsyRecStrategy : Strategy :=
  { c2Strategy with
    attrs := alistSet c2Strategy.attrs "_ft_params_from_file" (Val.dict []) }

theorem strategyResolver_C2_witness :
    (resolvePipeline demoRequiredOrdertypes demoRequiredOrdertif baseStrategy
        []).toOption.map
      (fun p => (p.1.getattr? "use_sell_signal", alistGet? p.2 "use_sell_signal")) =
      some (some (Val.bool true), some (Val.bool true))
    ∧ (resolvePipeline demoRequiredOrdertypes demoRequiredOrdertif c2FalsyRecStrategy
        []).toOption.map
      (fun p => (p.1.getattr? "use_sell_signal", alistGet? p.2 "use_sell_signal")) =
      some (some Val.none, Option.none) := by
  constructor
  · cases hres : resolvePipeline demoRequiredOrdertypes demoRequiredOrdertif baseStrategy
        [] with
    | error e =>
      have hne : (resolvePipeline demoRequiredOrdertypes demoRequiredOrdertif
          baseStrategy []).toOption ≠ Option.none := by decide
      exact absurd (by rw [hres]; rfl) hne
    | ok pr =>
      obtain ⟨s', c'⟩ := pr
      have h := (strategyResolver_C2_amended demoRequiredOrdertypes demoRequiredOrdertif
        baseStrategy s' [] c' "use_sell_signal" (Val.bool true) hres (by decide)
        (by decide) (by decide)).1 (by decide)
      show some (s'.getattr? "use_sell_signal", alistGet? c' "use_sell_signal") = _
      rw [h.1, h.2]
      rfl
  · cases hres : resolvePipeline demoRequiredOrdertypes demoRequiredOrdertif
        c2FalsyRecStrategy [] with
    | error e =>
      have hne : (resolvePipeline demoRequiredOrdertypes demoRequiredOrdertif
          c2FalsyRecStrategy []).toOption ≠ Option.none := by decide
      exact absurd (by rw [hres]; rfl) hne
    | ok pr =>
      obtain ⟨s', c'⟩ := pr
      have h := (strategyResolver_C2_amended demoRequiredOrdertypes demoRequiredOrdertif
        c2FalsyRecStrategy s' [] c' "use_sell_signal" (Val.bool true) hres (by decide)
        (by decide) (by decide)).2 (Val.dict []) (by decide) (by decide) (by decide)
      show some (s'.getattr? "use_sell_signal", alistGet? c' "use_sell_signal") = _
      rw [h.1, h.2]
      decide

/-- C3 amended: a catalog attribute absent from the configuration but
exposed with a non-null value on the freshly loaded plugin is published into
the configuration with that value — provided the plugin carries no truthy
hyperparameter record (`_ft_params_from_file`); with such a record the
overlay rewrites the risk attributes before the override pass, and the
overlaid value, not the plugin's original one, is what lands in the
configuration. -/
theorem strategyResolver_C3_amended (reqOT reqTIF : List String) (s s' : Strategy)
    (c c' : Config) (A : String) (v p : Val)
    (hres : resolvePipeline reqOT reqTIF s c = Except.ok (s', c'))
    (hmem : A ∈ attributesCatalog.map Prod.fst)
    (hc : alistGet? c A = Option.none)
    (hs : s.getattr? A = some v) (hv : v ≠ Val.none)
    (hft : s.getattr? "_ft_params_from_file" = some p) (hpb : p.toBool = false) :
    alistGet? c' A = some v := by
  unfold resolvePipeline at hres
  obtain ⟨s2, hov, hres⟩ := except_bind_ok _ _ _ hres
  obtain ⟨s4, hnorm, hres⟩ := except_bind_ok _ _ _ hres
  obtain ⟨u, hsan, hres⟩ := except_bind_ok _ _ _ hres
  simp only [Except.ok.injEq, Prod.mk.injEq] at hres
  obtain ⟨hs4, hcfg⟩ := hres
  have hs1 : (tickerIntervalPrePass s c).1.getattr? A = some v :=
    prePass_preserve_some s c A v hs
  have hft1 : (tickerIntervalPrePass s c).1.getattr? "_ft_params_from_file" =
      some p := by
    rw [prePass_preserve_ne s c _ (by decide)]
    exact hft
  have hov' : hyperoptOverlay (tickerIntervalPrePass s c).1 =
      Except.ok (tickerIntervalPrePass s c).1 :=
    hyperoptOverlay_noop _ _ hft1 hpb
  rw [hov] at hov'
  simp only [Except.ok.injEq] at hov'
  obtain ⟨hstrat, hconf⟩ := runOverridesAux_publish attributesCatalog s2 c A v
    attributesCatalog_nodup hmem hc (by rw [hov']; exact hs1) hv
  rw [← hcfg]
  exact hconf

/-- A strategy carrying a hyperopt parameter record that overrides
`stoploss` to `-0.2` while the class itself declares `-0.05`. -/
def c3Strategy : Strategy :=
  { className := "HyperoptStrategy"
    attrs := [("_ft_params_from_file",
               Val.dict [(Key.str "stoploss",
                          Val.dict [(Key.str "stoploss", Val.float (mkRat (-1) 5))])]),
              ("minimal_roi", Val.dict [(Key.int 0, Val.float 10)]),
              ("stoploss", Val.float (mkRat (-1) 20)),
              ("trailing_stop", Val.bool false),
              ("trailing_stop_positive", Val.none),
              ("trailing_stop_positive_offset", Val.float 0),
              ("trailing_only_offset_is_reached", Val.none),
              ("timeframe", Val.str "5m"),
              ("order_types", demoOrderTypes),
              ("order_time_in_force", demoOrderTif)]
    props := []
    populateIndicatorsArgs := 3
    populateBuyTrendArgs := 3
    populateSellTrendArgs := 3 }

/-- C3 counterexample: `c3Strategy` freshly exposes `stoploss = -0.05` and
the configuration lacks `stoploss`, so the claim demands that resolution
publish `-0.05` into the configuration; but the plugin carries a hyperopt
record with `stoploss = -0.2`, the overlay rewrites the attribute before the
override pass, and the configuration ends up with `-0.2` instead of the
plugin's original value. -/
theorem strategyResolver_C3_counterexample :
    alistGet? ([] : Config) "stoploss" = Option.none
    ∧ c3Strategy.getattr? "stoploss" = some (Val.float (mkRat (-1) 20))
    ∧ Val.float (mkRat (-1) 20) ≠ Val.none
    ∧ (resolvePipeline demoRequiredOrdertypes demoRequiredOrdertif c3Strategy
        []).toOption.map (fun p => alistGet? p.2 "stoploss") =
        some (some (Val.float (mkRat (-1) 5)))
    ∧ some (Val.float (mkRat (-1) 5)) ≠ some (Val.float (mkRat (-1) 20)) := by
  decide

theorem strategyResolver_C3_witness :
    (resolvePipeline demoRequiredOrdertypes demoRequiredOrdertif baseStrategy
        []).toOption.map (fun p => alistGet? p.2 "stoploss") =
      some (some (Val.float (mkRat (-1) 10))) := by
  cases hres : resolvePipeline demoRequiredOrdertypes demoRequiredOrdertif baseStrategy
      [] with
  | error e =>
    have hne : (resolvePipeline demoRequiredOrdertypes demoRequiredOrdertif baseStrategy
        []).toOption ≠ Option.none := by decide
    exact absurd (by rw [hres]; rfl) hne
  | ok pr =>
    obtain ⟨s', c'⟩ := pr
    have h := strategyResolver_C3_amended demoRequiredOrdertypes demoRequiredOrdertif
      baseStrategy s' [] c' "stoploss" (Val.float (mkRat (-1) 10)) Val.none hres
      (by decide) (by decide) (by decide) (by decide) (by decide) (by decide)
    show some (alistGet? c' "stoploss") = _
    rw [h]

/-- C10: for a catalog attribute that is a read-only class `property` with a
non-null getter value and that is also present in configuration, the
override engine leaves the plugin instance's attribute dictionary untouched
at that key (the attribute still reads as the property value), but silently
replaces the caller's configuration entry with the property's value. -/
theorem strategyResolver_C10 (s : Strategy) (c : Config) (A : String) (v cv : Val)
    (hmem : A ∈ attributesCatalog.map Prod.fst)
    (hpv : alistGet? s.props A = some v) (hv : v ≠ Val.none)
    (hc : alistGet? c A = some cv) :
    alistGet? (runOverrides s c).1.attrs A = alistGet? s.attrs A
    ∧ (runOverrides s c).1.getattr? A = some v
    ∧ alistGet? (runOverrides s c).2 A = some v := by
  unfold runOverrides
  have h := runOverridesAux_property attributesCatalog s c A v
    attributesCatalog_nodup hmem (by rw [hc]; rfl) hpv hv
  refine ⟨h.1, ?_, h.2⟩
  unfold Strategy.getattr?
  rw [runOverridesAux_props, hpv]

/-- A strategy whose class defines `protections` as a read-only property. -/
def propStrategy : Strategy :=
  { baseStrategy with
    props := [("protections", Val.dict [(Key.str "method", Val.str "CooldownPeriod")])] }

/-- Configuration explicitly setting `protections`. -/
def c10Config : Config := [("protections", Val.bool false)]

theorem strategyResolver_C10_witness :
    alistGet? (runOverrides propStrategy c10Config).1.attrs "protections" = Option.none
    ∧ alistGet? (runOverrides propStrategy c10Config).2 "protections" =
        some (Val.dict [(Key.str "method", Val.str "CooldownPeriod")])
    ∧ alistGet? c10Config "protections" = some (Val.bool false) := by
  have h := strategyResolver_C10 propStrategy c10Config "protections"
    (Val.dict [(Key.str "method", Val.str "CooldownPeriod")]) (Val.bool false)
    (by decide) (by decide) (by decide) (by decide)
  refine ⟨?_, h.2.2, by decide⟩
  rw [h.1]
  decide

/-- Ascending-key check for the coerced `minimal_roi` entries. -/
def roiKeyChain : List (Int × Val) → Bool
  | [] => true
  | [_] => true
  | p :: q :: t => decide (p.1 ≤ q.1) && roiKeyChain (q :: t)

theorem roiKeyChain_insert (p : Int × Val) (l : List (Int × Val))
    (h : roiKeyChain l = true) :
    roiKeyChain (insertRoiSorted p l) = true := by
  induction l with
  | nil => simp [insertRoiSorted, roiKeyChain]
  | cons q t ih =>
    unfold insertRoiSorted
    by_cases hpq : p.1 ≤ q.1
    · rw [if_pos hpq]
      show (decide (p.1 ≤ q.1) && roiKeyChain (q :: t)) = true
      simp [hpq, h]
    · rw [if_neg hpq]
      have hqp : q.1 ≤ p.1 := le_of_not_le hpq
      cases t with
      | nil => simp [insertRoiSorted, roiKeyChain, hqp]
      | cons r u =>
        have hh : (decide (q.1 ≤ r.1) && roiKeyChain (r :: u)) = true := h
        simp only [Bool.and_eq_true] at hh
        have ih' := ih hh.2
        unfold insertRoiSorted
        by_cases hpr : p.1 ≤ r.1
        · rw [if_pos hpr]
          show (decide (q.1 ≤ p.1) && (decide (p.1 ≤ r.1) && roiKeyChain (r :: u))) = true
          simp [hqp, hpr, hh.2]
        · rw [if_neg hpr]
          have heq : insertRoiSorted p (r :: u) = r :: insertRoiSorted p u := by
            show (if p.1 ≤ r.1 then p :: r :: u else r :: insertRoiSorted p u) = _
            rw [if_neg hpr]
          rw [heq] at ih'
          show (decide (q.1 ≤ r.1) && roiKeyChain (r :: insertRoiSorted p u)) = true
          simp [hh.1, ih']

theorem roiKeyChain_sortRoi (l : List (Int × Val)) :
    roiKeyChain (sortRoi l) = true := by
  induction l with
  | nil => rfl
  | cons p t ih =>
    unfold sortRoi
    exact roiKeyChain_insert p _ ih

/-- A value is an integer-keyed mapping sorted ascending by key. -/
def roiDictSorted : List (Key × Val) → Bool
  | [] => true
  | [(Key.int _, _)] => true
  | (Key.int a, _) :: (Key.int b, w) :: t =>
    decide (a ≤ b) && roiDictSorted ((Key.int b, w) :: t)
  | _ => false

/-- Checks that a normalized `minimal_roi` value is an integer-keyed mapping
whose keys ascend. -/
def isIntSortedDict : Val → Bool
  | Val.dict l => roiDictSorted l
  | _ => false

/-- Checks that a normalized `stoploss` value is a floating-point number. -/
def isFloatVal : Val → Bool
  | Val.float _ => true
  | _ => false

theorem roiDictSorted_map (l : List (Int × Val)) (h : roiKeyChain l = true) :
    roiDictSorted (l.map (fun p => (Key.int p.1, p.2))) = true := by
  induction l with
  | nil => rfl
  | cons p t ih =>
    cases t with
    | nil =>
      obtain ⟨a, v⟩ := p
      rfl
    | cons q u =>
      obtain ⟨a, v⟩ := p
      obtain ⟨b, w⟩ := q
      have hh : (decide (a ≤ b) && roiKeyChain ((b, w) :: u)) = true := h
      simp only [Bool.and_eq_true] at hh
      have ihh := ih hh.2
      show (decide (a ≤ b) &&
        roiDictSorted (List.map (fun p => (Key.int p.1, p.2)) ((b, w) :: u))) = true
      simp only [Bool.and_eq_true]
      exact ⟨by simp [hh.1], ihh⟩

theorem roiNorm_dict (l : List (Key × Val)) :
    roiNorm (Val.dict l) =
      (match coerceRoiKeys l with
       | Except.error e => Except.error e
       | Except.ok cl =>
         Except.ok (Val.dict ((sortRoi (dedupRoi cl)).map
           (fun p => (Key.int p.1, p.2))))) := rfl

theorem roiNorm_sorted (v v' : Val) (h : roiNorm v = Except.ok v') :
    isIntSortedDict v' = true := by
  cases v with
  | dict l =>
    rw [roiNorm_dict] at h
    cases hk : coerceRoiKeys l with
    | error e => rw [hk] at h; exact Except.noConfusion h
    | ok cl =>
      rw [hk] at h
      injection h with h'
      rw [← h']
      unfold isIntSortedDict
      exact roiDictSorted_map _ (roiKeyChain_sortRoi (dedupRoi cl))
  | none => exact absurd h (by simp [roiNorm])
  | bool b => exact absurd h (by simp [roiNorm])
  | int n => exact absurd h (by simp [roiNorm])
  | float q => exact absurd h (by simp [roiNorm])
  | str t => exact absurd h (by simp [roiNorm])

theorem stoplossNorm_float (v v' : Val) (h : stoplossNorm v = Except.ok v') :
    isFloatVal v' = true := by
  unfold stoplossNorm at h
  cases hf : pyFloat v with
  | error e => rw [hf] at h; exact absurd h (by simp)
  | ok q =>
    rw [hf] at h
    injection h with h'
    rw [← h']
    rfl

/-- C5: after successful normalization, whenever the plugin had a
`minimal_roi` attribute its resolved value is the `roiNorm` rebuild of the
stored mapping — an integer-keyed mapping sorted ascending by key — and
whenever it had a `stoploss` attribute its resolved value is the `float()`
coercion of the stored value, a floating-point number.  (Side conditions:
the two attributes are not `property` descriptors, which is how `IStrategy`
declares them.) -/
theorem strategyResolver_C5 (s s' : Strategy)
    (h : normalizeAttributes s = Except.ok s')
    (hp1 : s.isProp "minimal_roi" = false) (hp2 : s.isProp "stoploss" = false) :
    (∀ v, s.getattr? "minimal_roi" = some v →
      s'.getattr? "minimal_roi" = (roiNorm v).toOption
      ∧ Option.all isIntSortedDict ((roiNorm v).toOption) = true)
    ∧ (∀ w, s.getattr? "stoploss" = some w →
      s'.getattr? "stoploss" = (stoplossNorm w).toOption
      ∧ Option.all isFloatVal ((stoplossNorm w).toOption) = true) := by
  constructor
  · intro v hv
    have hval := normalizeAttributes_value s s' "minimal_roi" v h (by decide) hp1 hv
    constructor
    · rw [hval]
      unfold normalizeAttrValue
      rw [if_pos rfl]
    · cases hrv : roiNorm v with
      | error e => rfl
      | ok v' =>
        show isIntSortedDict v' = true
        exact roiNorm_sorted v v' hrv
  · intro w hw
    have hval := normalizeAttributes_value s s' "stoploss" w h (by decide) hp2 hw
    constructor
    · rw [hval]
      unfold normalizeAttrValue
      rw [if_neg (by decide), if_pos rfl]
    · cases hrw : stoplossNorm w with
      | error e => rfl
      | ok w' =>
        show isFloatVal w' = true
        exact stoplossNorm_float w w' hrw

/-- A strategy exposing exactly the spec's normalization examples:
`minimal_roi = {"20": 0.05, "0": 0.10}` and `stoploss = "-0.10"`. -/
def c5Strategy : Strategy :=
  { className := "RoiStrategy"
    attrs := [("minimal_roi",
               Val.dict [(Key.str "20", Val.float (mkRat 1 20)),
                         (Key.str "0", Val.float (mkRat 1 10))]),
              ("stoploss", Val.str "-0.10")]
    props := []
    populateIndicatorsArgs := 3
    populateBuyTrendArgs := 3
    populateSellTrendArgs := 3 }

theorem strategyResolver_C5_witness :
    (normalizeAttributes c5Strategy).toOption.map
      (fun t => (t.getattr? "minimal_roi", t.getattr? "stoploss")) =
      some (some (Val.dict [(Key.int 0, Val.float (mkRat 1 10)),
                            (Key.int 20, Val.float (mkRat 1 20))]),
            some (Val.float (mkRat (-1) 10))) := by
  cases hres : normalizeAttributes c5Strategy with
  | error e =>
    have hne : (normalizeAttributes c5Strategy).toOption ≠ Option.none := by decide
    exact absurd (by rw [hres]; rfl) hne
  | ok t =>
    have h := strategyResolver_C5 c5Strategy t hres (by decide) (by decide)
    have hroi := h.1 (Val.dict [(Key.str "20", Val.float (mkRat 1 20)),
      (Key.str "0", Val.float (mkRat 1 10))]) (by decide)
    have hsl := h.2 (Val.str "-0.10") (by decide)
    show some (t.getattr? "minimal_roi", t.getattr? "stoploss") = _
    rw [hroi.1, hsl.1]
    decide

theorem allContains_dict (l : List (Key × Val)) (ks : List String) :
    allContains (Val.dict l) ks =
      Except.ok (ks.all (fun k => (alistGet? l (Key.str k)).isSome)) := by
  induction ks with
  | nil => rfl
  | cons k t ih =>
    show (if (alistGet? l (Key.str k)).isSome then allContains (Val.dict l) t
      else Except.ok false) = _
    by_cases hb : (alistGet? l (Key.str k)).isSome
    · rw [if_pos hb, ih]
      simp [List.all_cons, hb]
    · rw [if_neg hb]
      simp only [List.all_cons]
      rw [show (alistGet? l (Key.str k)).isSome = false from by simpa using hb]
      rfl

/-- C6: with the two mappings present on the resolved plugin, the sanity
validator succeeds exactly when `order_types` contains every required
order-type key and `order_time_in_force` every required time-in-force key;
a missing order-type key fails with the `ImportError` naming the plugin's
class (and likewise for time-in-force when order-types is complete), and
that `ImportError` is a different failure kind from the
`OperationalException` used for plugin-not-found. -/
theorem strategyResolver_C6 (reqOT reqTIF : List String) (s : Strategy)
    (l1 l2 : List (Key × Val))
    (h1 : s.getattr? "order_types" = some (Val.dict l1))
    (h2 : s.getattr? "order_time_in_force" = some (Val.dict l2)) :
    (sanityValidations reqOT reqTIF s = Except.ok () ↔
      ((∀ k ∈ reqOT, (alistGet? l1 (Key.str k)).isSome = true)
        ∧ ∀ k ∈ reqTIF, (alistGet? l2 (Key.str k)).isSome = true))
    ∧ ((∃ k ∈ reqOT, (alistGet? l1 (Key.str k)).isSome = false) →
      sanityValidations reqOT reqTIF s =
        Except.error (Err.importError (orderTypesMsg s.className)))
    ∧ (((∀ k ∈ reqOT, (alistGet? l1 (Key.str k)).isSome = true)
        ∧ ∃ k ∈ reqTIF, (alistGet? l2 (Key.str k)).isSome = false) →
      sanityValidations reqOT reqTIF s =
        Except.error (Err.importError (orderTifMsg s.className)))
    ∧ ∀ m1 m2, Err.importError m1 ≠ Err.operational m2 := by
  have hE1 : s.getattrE "order_types" = Except.ok (Val.dict l1) := by
    unfold Strategy.getattrE
    rw [h1]
  have hE2 : s.getattrE "order_time_in_force" = Except.ok (Val.dict l2) := by
    unfold Strategy.getattrE
    rw [h2]
  have hsv : sanityValidations reqOT reqTIF s =
      (if !(reqOT.all fun k => (alistGet? l1 (Key.str k)).isSome) then
        Except.error (Err.importError (orderTypesMsg s.className))
      else if !(reqTIF.all fun k => (alistGet? l2 (Key.str k)).isSome) then
        Except.error (Err.importError (orderTifMsg s.className))
      else Except.ok ()) := by
    unfold sanityValidations
    rw [hE1]
    show (allContains (Val.dict l1) reqOT).bind _ = _
    rw [allContains_dict]
    show (if !(reqOT.all fun k => (alistGet? l1 (Key.str k)).isSome) then _ else _) = _
    by_cases hb1 : (reqOT.all fun k => (alistGet? l1 (Key.str k)).isSome) = true
    · rw [hb1]
      simp only [Bool.not_true, Bool.false_eq_true, if_false]
      rw [hE2]
      show (allContains (Val.dict l2) reqTIF).bind _ = _
      rw [allContains_dict]
      rfl
    · rw [show (reqOT.all fun k => (alistGet? l1 (Key.str k)).isSome) = false from
        by simpa using hb1]
      rfl
  refine ⟨?_, ?_, ?_, fun m1 m2 h => Err.noConfusion h⟩
  · rw [hsv]
    constructor
    · intro hok
      by_cases hb1 : (reqOT.all fun k => (alistGet? l1 (Key.str k)).isSome) = true
      · rw [hb1] at hok
        simp only [Bool.not_true, Bool.false_eq_true, if_false] at hok
        by_cases hb2 : (reqTIF.all fun k => (alistGet? l2 (Key.str k)).isSome) = true
        · exact ⟨List.all_eq_true.mp hb1, List.all_eq_true.mp hb2⟩
        · rw [show (reqTIF.all fun k => (alistGet? l2 (Key.str k)).isSome) = false from
            by simpa using hb2] at hok
          exact Except.noConfusion hok
      · rw [show (reqOT.all fun k => (alistGet? l1 (Key.str k)).isSome) = false from
          by simpa using hb1] at hok
        exact Except.noConfusion hok
    · intro ⟨ha1, ha2⟩
      rw [List.all_eq_true.mpr ha1, List.all_eq_true.mpr ha2]
      rfl
  · intro ⟨k, hk, hks⟩
    have hb : (reqOT.all fun k => (alistGet? l1 (Key.str k)).isSome) = false := by
      cases hba : reqOT.all fun k => (alistGet? l1 (Key.str k)).isSome
      · rfl
      · exact absurd (List.all_eq_true.mp hba k hk) (by simp [hks])
    rw [hsv, hb]
    rfl
  · intro ⟨ha1, k, hk, hks⟩
    have hb : (reqTIF.all fun k => (alistGet? l2 (Key.str k)).isSome) = false := by
      cases hba : reqTIF.all fun k => (alistGet? l2 (Key.str k)).isSome
      · rfl
      · exact absurd (List.all_eq_true.mp hba k hk) (by simp [hks])
    rw [hsv, List.all_eq_true.mpr ha1, hb]
    rfl

/-- A strategy whose `order_types` lacks the required
`stoploss_on_exchange` key. -/
def c6BadStrategy : Strategy :=
  { baseStrategy with
    attrs := [("order_types",
               Val.dict [(Key.str "entry", Val.str "limit"),
                         (Key.str "exit", Val.str "limit"),
                         (Key.str "stoploss", Val.str "limit")]),
              ("order_time_in_force", demoOrderTif)] }

theorem strategyResolver_C6_witness :
    sanityValidations demoRequiredOrdertypes demoRequiredOrdertif baseStrategy =
      Except.ok ()
    ∧ sanityValidations demoRequiredOrdertypes demoRequiredOrdertif c6BadStrategy =
        Except.error (Err.importError (orderTypesMsg "SampleStrategy")) := by
  constructor
  · exact (strategyResolver_C6 demoRequiredOrdertypes demoRequiredOrdertif baseStrategy
      [(Key.str "entry", Val.str "limit"), (Key.str "exit", Val.str "limit"),
       (Key.str "stoploss", Val.str "limit"), (Key.str "stoploss_on_exchange", Val.bool false)]
      [(Key.str "entry", Val.str "gtc"), (Key.str "exit", Val.str "gtc")]
      (by decide) (by decide)).1.mpr ⟨by decide, by decide⟩
  · exact (strategyResolver_C6 demoRequiredOrdertypes demoRequiredOrdertif c6BadStrategy
      [(Key.str "entry", Val.str "limit"), (Key.str "exit", Val.str "limit"),
       (Key.str "stoploss", Val.str "limit")]
      [(Key.str "entry", Val.str "gtc"), (Key.str "exit", Val.str "gtc")]
      (by decide) (by decide)).2.1 ⟨"stoploss_on_exchange", by decide, by decide⟩
